import Mathlib

/-!
Verification of the OmniFlow-Protocol core: a shallow embedding of the
multi-protocol route aggregator (`src/MultiProtocolAggregator.ts`), the
bridge calldata builder (`SmartAggregatorBridge`), and the two Solidity
contracts (`OmniFlowSmartAggregator`, `SmartAccount`) from
`src/contracts/contracts/OmniFlowSmartAggregator_Fixed.sol`.

Numbers that are JavaScript floats or Solidity uint256 are modelled as
`ℚ` and `ℕ` respectively; JavaScript truthiness of optional numbers and
strings is modelled explicitly.  A reverting Solidity call is an
`Except.error`; the caller keeps the pre-call state in that case.
-/

namespace OmniFlow

/-- JavaScript `Math.round`: round half toward positive infinity. -/
def jsRound (q : ℚ) : ℤ := ⌊q + 1 / 2⌋

/-- JavaScript `x || d` for an optional number `x`: `undefined` and `0` are falsy. -/
def jsOrOptQ (x : Option ℚ) (d : ℚ) : ℚ :=
  match x with
  | none => d
  | some v => if v = 0 then d else v

/-- JavaScript `x || d` for a number `x` that is always present. -/
def jsOrQ (v d : ℚ) : ℚ := if v = 0 then d else v

/-- JavaScript truthiness of an optional number. -/
def truthyQ (x : Option ℚ) : Bool :=
  match x with
  | none => false
  | some v => if v = 0 then false else true

/-- JavaScript truthiness of an optional natural number. -/
def truthyN (x : Option ℕ) : Bool :=
  match x with
  | none => false
  | some v => if v = 0 then false else true

/-- JavaScript truthiness of an optional string: `undefined` and `""` are falsy. -/
def truthyStr (x : Option String) : Bool :=
  match x with
  | none => false
  | some s => if s = "" then false else true

/-- JavaScript `s || d` for a string that is always present. -/
def jsOrStr (s d : String) : String := if s = "" then d else s

/-- JavaScript `x || d` for an optional string. -/
def jsOrOptStr (x : Option String) (d : String) : String :=
  match x with
  | none => d
  | some s => if s = "" then d else s

/-- Solidity `require(cond, msg)`. -/
def req (c : Prop) [Decidable c] (msg : String) : Except String Unit :=
  if c then .ok () else .error msg

/-- JavaScript `toLowerCase()`, character by character (an executable
equivalent of `String.toLower`). -/
def lowerString (s : String) : String := String.mk (s.data.map Char.toLower)

namespace Agg

/-- One normalized bridge quote as assembled by `getAggregatedRoutes`
(`src/MultiProtocolAggregator.ts`).  Fields that the analysis and the
strategy synthesis read are kept; `totalFee`, `fromAmountUSD` and
`toAmountUSD` hold the already `parseFloat`-ed values of the string
fields, `stepsCount` holds the resolved
`estimate?.includedSteps?.length || rawData?.includedSteps?.length`. -/
structure RouteQuote where
  id : String
  protocol : String
  protocolName : String
  tool : Option String
  executionDuration : Option ℚ
  totalFee : Option ℚ
  fromAmountUSD : Option ℚ
  toAmountUSD : Option ℚ
  stepsCount : Option ℕ
  deriving Repr, DecidableEq

/-- The five sub-scores of `securityAnalysis`. -/
structure SecurityAnalysis where
  protocolSecurity : ℚ
  liquiditySecurity : ℚ
  timeSecurity : ℚ
  feeSecurity : ℚ
  routeComplexity : ℚ
  deriving Repr, DecidableEq

/-- A route decorated by `analyzeBasicRoutes`. -/
structure AnalyzedRoute where
  route : RouteQuote
  securityAnalysis : SecurityAnalysis
  overallSecurity : ℚ
  riskFactors : List String
  deriving Repr, DecidableEq

/-- The static security database of `getProtocolSecurityScore`
(keys are lower-cased): relay 92, across 89, lifi 92; anything else is
unknown (`undefined`), never guessed. -/
def lookupProtocolScore (name : String) : Option ℚ :=
  let l := lowerString name
  if l = "relay" then some 92
  else if l = "across" then some 89
  else if l = "lifi" then some 92
  else none

/-- `assessLiquiditySecurity`: slippage buckets 95/90/85/75/60 at
0.1 percent / 0.5 percent / 1 percent / 3 percent; `undefined` when
`fromAmountUSD` is absent or zero. -/
def assessLiquiditySecurity (r : RouteQuote) : Option ℚ :=
  let fromUSD := r.fromAmountUSD.getD 0
  let toUSD := r.toAmountUSD.getD 0
  if fromUSD = 0 then none
  else
    let slippage := |fromUSD - toUSD| / fromUSD
    if slippage < 1 / 1000 then some 95
    else if slippage < 5 / 1000 then some 90
    else if slippage < 1 / 100 then some 85
    else if slippage < 3 / 100 then some 75
    else some 60

/-- `assessTimeSecurity`: duration buckets 98/92/85/75/60 at 5s/30s/120s/600s;
`undefined` when `executionDuration` is absent or zero (JS falsy). -/
def assessTimeSecurity (r : RouteQuote) : Option ℚ :=
  match r.executionDuration with
  | none => none
  | some t =>
    if t = 0 then none
    else if t ≤ 5 then some 98
    else if t ≤ 30 then some 92
    else if t ≤ 120 then some 85
    else if t ≤ 600 then some 75
    else some 60

/-- `assessFeeReasonableness`: fee-percentage buckets 95/90/85/75/60 at
0.1/0.5/1/2 percent; `undefined` when the fee or `fromAmountUSD` is
absent or zero. -/
def assessFeeReasonableness (r : RouteQuote) : Option ℚ :=
  let fee := r.totalFee.getD 0
  if fee = 0 then none
  else
    let fromUSD := r.fromAmountUSD.getD 0
    if fromUSD = 0 then none
    else
      let feePercentage := fee / fromUSD * 100
      if feePercentage < 1 / 10 then some 95
      else if feePercentage < 5 / 10 then some 90
      else if feePercentage < 1 then some 85
      else if feePercentage < 2 then some 75
      else some 60

/-- `assessRouteComplexity`: step-count buckets 95/90/80/70/60 at 1/2/3/5 steps;
`undefined` when the step count is absent or zero. -/
def assessRouteComplexity (r : RouteQuote) : Option ℚ :=
  match r.stepsCount with
  | none => none
  | some n =>
    if n = 0 then none
    else if n ≤ 1 then some 95
    else if n ≤ 2 then some 90
    else if n ≤ 3 then some 80
    else if n ≤ 5 then some 70
    else some 60

/-- `identifyRealRiskFactors`: one message per sub-score that is nonzero
and below 80. -/
def identifyRealRiskFactors (a : SecurityAnalysis) : List String :=
  (if a.protocolSecurity ≠ 0 ∧ a.protocolSecurity < 80 then ["协议安全评分较低"] else []) ++
  (if a.liquiditySecurity ≠ 0 ∧ a.liquiditySecurity < 80 then ["流动性风险: 滑点较高"] else []) ++
  (if a.timeSecurity ≠ 0 ∧ a.timeSecurity < 80 then ["时间风险: 执行时间较长，MEV风险增加"] else []) ++
  (if a.feeSecurity ≠ 0 ∧ a.feeSecurity < 80 then ["费用偏高: 超过正常市场水平"] else []) ++
  (if a.routeComplexity ≠ 0 ∧ a.routeComplexity < 80 then ["路由复杂: 多步骤执行，失败风险增加"] else [])

/-- One route step of `analyzeBasicRoutes`: if the protocol security
score is unavailable the route gets `overallSecurity = 0` and a single
data-unavailable risk factor; otherwise each unavailable sub-score
defaults to 75 and `overallSecurity` is the rounded weighted sum
(30/25/20/15/10 percent). -/
def analyzeRoute (r : RouteQuote) : AnalyzedRoute :=
  let protocolSecurity := lookupProtocolScore (jsOrOptStr r.tool r.protocol)
  if truthyQ protocolSecurity then
    let a : SecurityAnalysis :=
      { protocolSecurity := protocolSecurity.getD 0
        liquiditySecurity := jsOrOptQ (assessLiquiditySecurity r) 75
        timeSecurity := jsOrOptQ (assessTimeSecurity r) 75
        feeSecurity := jsOrOptQ (assessFeeReasonableness r) 75
        routeComplexity := jsOrOptQ (assessRouteComplexity r) 75 }
    { route := r
      securityAnalysis := a
      overallSecurity :=
        (jsRound (a.protocolSecurity * (3 / 10) + a.liquiditySecurity * (25 / 100) +
          a.timeSecurity * (2 / 10) + a.feeSecurity * (15 / 100) +
          a.routeComplexity * (1 / 10)) : ℤ)
      riskFactors := identifyRealRiskFactors a }
  else
    { route := r
      securityAnalysis := ⟨0, 0, 0, 0, 0⟩
      overallSecurity := 0
      riskFactors := ["协议安全数据不可用"] }

/-- `analyzeBasicRoutes`, applied route by route. -/
def analyzeBasicRoutes (routes : List RouteQuote) : List AnalyzedRoute :=
  routes.map analyzeRoute

/-- One entry of a `splits` array. -/
structure SplitEntry where
  protocol : String
  protocolName : String
  route : AnalyzedRoute
  amount : ℚ
  percentage : ℚ
  deriving Repr, DecidableEq

/-- An `AggregatedRoute` strategy as produced by
`generateMultiProtocolSplits`. -/
structure Strategy where
  strategy : String
  routes : List AnalyzedRoute
  totalAmount : ℚ
  splits : List SplitEntry
  estimatedTime : ℚ
  totalFees : ℚ
  securityScore : ℚ
  description : String
  deriving Repr, DecidableEq

/-- The comparator score of the best-single-route selection
(`routes.sort` inside `generateMultiProtocolSplits`): a route with no fee
data scores 0, otherwise `1000 / (duration || 300) + 100 / fee`. -/
def routeScore (r : AnalyzedRoute) : ℚ :=
  let time := jsOrOptQ r.route.executionDuration 300
  match r.route.totalFee with
  | none => 0
  | some fee => 1000 / time + 100 / fee

/-- First-occurrence insertion of a protocol key, mirroring how the JS
`reduce` builds the keys of `routesByProtocol` in route order. -/
def insertKey (ks : List String) (k : String) : List String :=
  if k ∈ ks then ks else ks ++ [k]

/-- Protocol keys of `routesByProtocol`, in first-occurrence order. -/
def protocolKeys (routes : List AnalyzedRoute) : List String :=
  routes.foldl (fun ks r => insertKey ks r.route.protocol) []

/-- The group `routesByProtocol[k]`, in route order. -/
def groupOf (routes : List AnalyzedRoute) (k : String) : List AnalyzedRoute :=
  routes.filter (fun r => r.route.protocol = k)

/-- The best-single-route strategy built from the top route. -/
def bestSingleStrategy (amount : ℚ) (best : AnalyzedRoute) : Strategy :=
  { strategy := "best-single-route"
    routes := [best]
    totalAmount := amount
    splits := [{ protocol := best.route.protocol
                 protocolName := jsOrStr best.route.protocolName best.route.protocol
                 route := best
                 amount := amount
                 percentage := 100 }]
    estimatedTime := jsOrOptQ best.route.executionDuration 0
    totalFees := r1Fee best
    securityScore := jsOrQ best.overallSecurity 75
    description := "最优单路由: " ++ best.route.protocolName }
where
  /-- `route.totalFee ? parseFloat(route.totalFee) : 0`. -/
  r1Fee (r : AnalyzedRoute) : ℚ := r.route.totalFee.getD 0

/-- The fee of a route used by the split synthesis:
`route.totalFee ? parseFloat(route.totalFee) : 0`. -/
def splitFee (r : AnalyzedRoute) : ℚ := r.route.totalFee.getD 0

/-- The fixed 70/30 multi-protocol-split strategy over the first route of
each of the first two protocol groups. -/
def splitStrategy (amount : ℚ) (r1 r2 : AnalyzedRoute) : Strategy :=
  let s1 := jsOrQ r1.overallSecurity 75
  let s2 := jsOrQ r2.overallSecurity 75
  { strategy := "multi-protocol-split"
    routes := [r1, r2]
    totalAmount := amount
    splits := [{ protocol := r1.route.protocol
                 protocolName := jsOrStr r1.route.protocolName r1.route.protocol
                 route := r1
                 amount := amount * (7 / 10)
                 percentage := 70 },
               { protocol := r2.route.protocol
                 protocolName := jsOrStr r2.route.protocolName r2.route.protocol
                 route := r2
                 amount := amount * (3 / 10)
                 percentage := 30 }]
    estimatedTime := max (jsOrOptQ r1.route.executionDuration 0) (jsOrOptQ r2.route.executionDuration 0)
    totalFees := splitFee r1 * (7 / 10) + splitFee r2 * (3 / 10)
    securityScore := (jsRound (s1 * (7 / 10) + s2 * (3 / 10)) : ℤ)
    description := "风险分散: " ++ r1.route.protocolName ++ "(70) + " ++ r2.route.protocolName ++ "(30)" }

/-- Strategy 1 of `generateMultiProtocolSplits`: the best single route,
when any route exists (the JS in-place sort selects a maximum of
`routeScore`, stably). -/
def baseStrategies (routes : List AnalyzedRoute) (amount : ℚ) : List Strategy :=
  match routes.insertionSort (fun a b => routeScore b ≤ routeScore a) with
  | [] => []
  | best :: _ => [bestSingleStrategy amount best]

/-- The strategies of `generateMultiProtocolSplits` before the final sort:
the best single route (when any route exists), plus the 70/30 split when
more than one protocol is available and the amount exceeds 0.5. -/
def preSortStrategies (routes : List AnalyzedRoute) (amount : ℚ) : List Strategy :=
  match protocolKeys routes with
  | k1 :: k2 :: _ =>
    if amount > 1 / 2 then
      match groupOf routes k1, groupOf routes k2 with
      | r1 :: _, r2 :: _ => baseStrategies routes amount ++ [splitStrategy amount r1 r2]
      | _, _ => baseStrategies routes amount
    else baseStrategies routes amount
  | _ => baseStrategies routes amount

/-- The key of the final strategy sort at the end of
`generateMultiProtocolSplits`:
`1000 / max(estimatedTime, 60) + 100 / max(totalFees, 1)`.
Note it does not read `securityScore`. -/
def strategySortKey (s : Strategy) : ℚ :=
  1000 / max s.estimatedTime 60 + 100 / max s.totalFees 1

/-- `generateMultiProtocolSplits`: synthesize the strategies and sort
them by `strategySortKey`, descending (stable, as the JS `sort`). -/
def generateMultiProtocolSplits (routes : List AnalyzedRoute) (amount : ℚ) : List Strategy :=
  (preSortStrategies routes amount).insertionSort
    (fun a b => strategySortKey b ≤ strategySortKey a)

/-- `calculateStrategyScore`: the security/speed/fee composite
`(securityScore || 80) * 0.4 + (1000 / max(time, 60)) * 0.3 +
(100 / max(fees, 1)) * 0.3`.  Defined in the source but never invoked. -/
def calculateStrategyScore (s : Strategy) : ℚ :=
  jsOrQ s.securityScore 80 * (4 / 10) +
    (1000 / max s.estimatedTime 60) * (3 / 10) +
    (100 / max s.totalFees 1) * (3 / 10)

/-- The routes collected by `getAggregatedRoutes` after the per-provider
fan-out: a failed or timed-out provider query is caught and contributes
an empty list, successes contribute their routes, in provider order. -/
def collectRoutes (results : List (Except Unit (List RouteQuote))) : List RouteQuote :=
  (results.map (fun r => match r with | .error _ => [] | .ok rs => rs)).flatten

/-- `getAggregatedRoutes`, given the settled provider query results:
throws a no-routes error when no provider returned any route, otherwise
analyzes and synthesizes strategies. -/
def getAggregatedRoutes (results : List (Except Unit (List RouteQuote))) (amount : ℚ) :
    Except String (List Strategy) :=
  let allRoutes := collectRoutes results
  if allRoutes.isEmpty then .error "所有协议都无法提供路由"
  else .ok (generateMultiProtocolSplits (analyzeBasicRoutes allRoutes) amount)

end Agg

namespace Bridge

/-- The raw Across quote fields `generateAcrossCallData` reads from
`route.rawData`. -/
structure AcrossRaw where
  exclusiveRelayer : Option String
  timestamp : Option ℕ
  fillDeadline : Option ℕ
  exclusivityDeadline : Option ℕ
  deriving Repr, DecidableEq

/-- The route fields `generateAcrossCallData` reads. -/
structure AcrossRoute where
  id : Option String
  fromAmount : Option String
  toAmount : Option String
  inputTokenAddress : Option String
  outputTokenAddress : Option String
  outputTokenChainId : Option ℕ
  rawData : AcrossRaw
  deriving Repr, DecidableEq

/-- The argument tuple of the encoded Across V3 `depositV3` call. -/
structure DepositV3Args where
  depositor : String
  recipient : String
  inputToken : String
  outputToken : String
  inputAmount : String
  outputAmount : String
  destinationChainId : ℕ
  exclusiveRelayer : String
  quoteTimestamp : ℕ
  fillDeadline : ℕ
  exclusivityDeadline : ℕ
  message : String
  deriving Repr, DecidableEq

def zeroAddress : String := "0x0000000000000000000000000000000000000000"

/-- The missing-field list computed by `generateAcrossCallData`, in
source order.  All fields but `exclusivityDeadline` are checked with JS
truthiness; `exclusivityDeadline` only against `undefined`. -/
def missingFields (r : AcrossRoute) : List String :=
  (if truthyStr r.inputTokenAddress then [] else ["inputToken"]) ++
  (if truthyStr r.outputTokenAddress then [] else ["outputToken"]) ++
  (if truthyStr r.fromAmount then [] else ["inputAmount"]) ++
  (if truthyStr r.toAmount then [] else ["outputAmount"]) ++
  (if truthyN r.outputTokenChainId then [] else ["destinationChainId"]) ++
  (if truthyStr r.rawData.exclusiveRelayer then [] else ["exclusiveRelayer"]) ++
  (if truthyN r.rawData.timestamp then [] else ["quoteTimestamp"]) ++
  (if truthyN r.rawData.fillDeadline then [] else ["fillDeadline"]) ++
  (if r.rawData.exclusivityDeadline.isSome then [] else ["exclusivityDeadline"])

/-- The error message thrown when required Across fields are absent. -/
def acrossMissingMsg (fields : List String) : String :=
  "Across 路由数据不完整，缺少以下必需字段: " ++ String.intercalate ", " fields

/-- `generateAcrossCallData`: either every required field is present and
the `depositV3` argument tuple is built from the quote data as-is, or
the construction throws listing every missing field by name.  The ABI
byte encoding itself is not modelled; the argument tuple is the
observable content of the calldata. -/
def generateAcrossCallData (r : AcrossRoute) (userAddress : String) :
    Except String DepositV3Args :=
  let missing := missingFields r
  if missing.isEmpty then
    .ok { depositor := zeroAddress
          recipient := userAddress
          inputToken := r.inputTokenAddress.getD ""
          outputToken := r.outputTokenAddress.getD ""
          inputAmount := r.fromAmount.getD ""
          outputAmount := r.toAmount.getD ""
          destinationChainId := r.outputTokenChainId.getD 0
          exclusiveRelayer := r.rawData.exclusiveRelayer.getD ""
          quoteTimestamp := r.rawData.timestamp.getD 0
          fillDeadline := r.rawData.fillDeadline.getD 0
          exclusivityDeadline := r.rawData.exclusivityDeadline.getD 0
          message := "0x" }
  else .error (acrossMissingMsg missing)

end Bridge

namespace SA

/-- A pending `Recovery` record of `SmartAccount`; a never-written slot
of the `recoveries` mapping holds `RecoveryReq.init`. -/
structure RecoveryReq where
  newOwner : ℕ
  confirmations : ℕ
  confirmed : ℕ → Bool
  timestamp : ℕ
  executed : Bool

/-- Solidity mapping default. -/
def RecoveryReq.init : RecoveryReq :=
  { newOwner := 0, confirmations := 0, confirmed := fun _ => false
    timestamp := 0, executed := false }

/-- The storage of one `SmartAccount` (addresses are `ℕ`, `0` is the
zero address). -/
structure State where
  owner : ℕ
  guardians : ℕ → Bool
  guardianList : List ℕ
  guardianCount : ℕ
  requiredGuardians : ℕ
  recoveries : ℕ → RecoveryReq
  recoveryCounter : ℕ

/-- The constructor guardian loop: rejects the zero address and
duplicates, builds the mapping and the list. -/
def initGuardians : (ℕ → Bool) → List ℕ → List ℕ → Except String ((ℕ → Bool) × List ℕ)
  | g, acc, [] => .ok (g, acc)
  | g, acc, a :: rest => do
    req (a ≠ 0) "SmartAccount: guardian cannot be zero address"
    req (g a = false) "SmartAccount: duplicate guardian"
    initGuardians (fun x => if x = a then true else g x) (acc ++ [a]) rest

/-- The `SmartAccount` constructor.  It checks the owner, the entry
point, the threshold bounds and each guardian for zero/duplicate, but
performs no check that the owner is not among the guardians. -/
def construct (owner : ℕ) (gs : List ℕ) (required : ℕ) (entryPoint : ℕ) :
    Except String State := do
  req (owner ≠ 0) "SmartAccount: owner cannot be zero address"
  req (entryPoint ≠ 0) "SmartAccount: entryPoint cannot be zero address"
  req (required > 0 ∧ required ≤ gs.length) "SmartAccount: invalid required guardians count"
  let (g, lst) ← initGuardians (fun _ => false) [] gs
  .ok { owner := owner
        guardians := g
        guardianList := lst
        guardianCount := gs.length
        requiredGuardians := required
        recoveries := fun _ => RecoveryReq.init
        recoveryCounter := 0 }

/-- `addGuardian` (owner-only). -/
def addGuardian (s : State) (sender g : ℕ) : Except String State := do
  req (sender = s.owner) "SmartAccount: caller is not the owner"
  req (g ≠ 0) "SmartAccount: guardian cannot be zero address"
  req (s.guardians g = false) "SmartAccount: guardian already exists"
  req (g ≠ s.owner) "SmartAccount: owner cannot be guardian"
  .ok { s with
        guardians := fun x => if x = g then true else s.guardians x
        guardianList := s.guardianList ++ [g]
        guardianCount := s.guardianCount + 1 }

/-- The swap-and-pop removal from `guardianList`. -/
def removeFromList (l : List ℕ) (g : ℕ) : List ℕ :=
  match l.findIdx? (fun x => x = g) with
  | none => l
  | some i => (l.set i (l.getLastD 0)).dropLast

/-- `removeGuardian` (owner-only): rejects removal that would drop the
count to `requiredGuardians` or below. -/
def removeGuardian (s : State) (sender g : ℕ) : Except String State := do
  req (sender = s.owner) "SmartAccount: caller is not the owner"
  req (s.guardians g = true) "SmartAccount: guardian does not exist"
  req (s.guardianCount > s.requiredGuardians) "SmartAccount: cannot remove guardian"
  .ok { s with
        guardians := fun x => if x = g then false else s.guardians x
        guardianList := removeFromList s.guardianList g
        guardianCount := s.guardianCount - 1 }

def RECOVERY_PERIOD : ℕ := 172800

/-- `initiateRecovery` (guardian-only): creates a request carrying one
confirmation from the initiator. -/
def initiateRecovery (s : State) (sender now newOwner : ℕ) : Except String State := do
  req (s.guardians sender = true) "SmartAccount: caller is not a guardian"
  req (newOwner ≠ 0) "SmartAccount: new owner cannot be zero address"
  req (newOwner ≠ s.owner) "SmartAccount: new owner is current owner"
  let id := s.recoveryCounter
  let r : RecoveryReq :=
    { newOwner := newOwner, confirmations := 1
      confirmed := fun x => x = sender, timestamp := now, executed := false }
  .ok { s with
        recoveries := fun j => if j = id then r else s.recoveries j
        recoveryCounter := s.recoveryCounter + 1 }

/-- `_executeRecovery`: swap the owner and mark the request executed. -/
def execRecoveryInternal (s : State) (id : ℕ) : State :=
  let r := s.recoveries id
  { s with
    owner := r.newOwner
    recoveries := fun j => if j = id then { r with executed := true } else s.recoveries j }

/-- `confirmRecovery` (guardian-only, once per guardian per request);
auto-executes when the threshold is met and the delay has elapsed. -/
def confirmRecovery (s : State) (sender now id : ℕ) : Except String State := do
  req (s.guardians sender = true) "SmartAccount: caller is not a guardian"
  let r := s.recoveries id
  req (r.newOwner ≠ 0) "SmartAccount: recovery does not exist"
  req (r.executed = false) "SmartAccount: recovery already executed"
  req (r.confirmed sender = false) "SmartAccount: already confirmed"
  let r' : RecoveryReq :=
    { r with confirmed := fun x => if x = sender then true else r.confirmed x
             confirmations := r.confirmations + 1 }
  let s' := { s with recoveries := fun j => if j = id then r' else s.recoveries j }
  if r'.confirmations ≥ s.requiredGuardians ∧ now ≥ r'.timestamp + RECOVERY_PERIOD then
    .ok (execRecoveryInternal s' id)
  else
    .ok s'

/-- `executeRecovery` (any caller). -/
def executeRecovery (s : State) (now id : ℕ) : Except String State := do
  let r := s.recoveries id
  req (r.confirmations ≥ s.requiredGuardians) "SmartAccount: insufficient confirmations"
  req (now ≥ r.timestamp + RECOVERY_PERIOD) "SmartAccount: recovery period not passed"
  req (r.executed = false) "SmartAccount: recovery already executed"
  .ok (execRecoveryInternal s id)

/-- A sub-call of `batchExecute`. -/
structure Call where
  «to» : ℕ
  value : ℕ
  dataLen : ℕ
  deriving Repr, DecidableEq

/-- The `batchExecute` loop over an external-call semantics `env`
(`none` = the sub-call reverted): the first failure aborts, otherwise
the world state is threaded left to right in array order. -/
def batchGo {σ : Type} (env : Call → σ → Option σ) : σ → List Call → Option σ
  | w, [] => some w
  | w, c :: cs =>
    match env c w with
    | none => none
    | some w' => batchGo env w' cs

/-- `batchExecute` (owner-only, rejects an empty calls array); `none` is
a revert, in which case the platform restores the pre-transaction
world. -/
def batchExecute {σ : Type} (env : Call → σ → Option σ) (owner sender : ℕ)
    (w : σ) (calls : List Call) : Option σ :=
  if sender = owner then
    if calls.isEmpty then none
    else batchGo env w calls
  else none

/-- The world state after a `batchExecute` transaction: a revert leaves
the pre-transaction world in place. -/
def batchTxResult {σ : Type} (env : Call → σ → Option σ) (owner sender : ℕ)
    (w : σ) (calls : List Call) : σ :=
  (batchExecute env owner sender w calls).getD w

end SA

namespace Flow

/-- One `ProtocolRoute` passed to `executeAggregatedRoute`; `callDataLen`
is the byte length of the opaque calldata. -/
structure PRoute where
  protocol : String
  bridge : ℕ
  callDataLen : ℕ
  value : ℕ
  amount : ℕ
  deriving Repr, DecidableEq, Inhabited

/-- An `AggregatedRouteStrategy` as passed to `executeAggregatedRoute`. -/
structure RStrategy where
  strategyType : String
  routes : List PRoute
  totalAmount : ℕ
  minOutput : ℕ
  deadline : ℕ
  securityScore : ℕ
  estimatedTime : ℕ
  estimatedFees : ℕ
  deriving Repr, DecidableEq

/-- Events emitted by `OmniFlowSmartAggregator` that the claims observe. -/
inductive Ev where
  | protocolRouteExecuted (protocol : String) (amount : ℕ) (success : Bool)
  | routeSplit (protocol1 : String) (amount1 : ℕ) (protocol2 : String) (amount2 : ℕ)
  | aggregatedRouteExecuted (strategyType : String) (protocolCount totalAmount : ℕ) (success : Bool)
  deriving Repr, DecidableEq

/-- The storage of `OmniFlowSmartAggregator` restricted to what
`executeAggregatedRoute` touches; `balances` are the source-token ERC20
balances by holder, `events` the emitted event log.  Token amounts a
bridge pulls from its approval during an external call happen outside
this contract and are not tracked. -/
structure CState where
  balances : ℕ → ℕ
  trustedBridges : ℕ → Bool
  protocolFeeBps : ℕ
  feeRecipient : ℕ
  minGlobalSecurityScore : ℕ
  maxFeePercentage : ℕ
  minAmountForSplit : ℕ
  contractAddr : ℕ
  events : List Ev

/-- ERC20 balance update for a transfer (well-defined also when the two
parties coincide). -/
def doTransfer (b : ℕ → ℕ) (src dst amt : ℕ) : ℕ → ℕ :=
  let b1 := fun a => if a = src then b src - amt else b a
  fun a => if a = dst then b1 dst + amt else b1 a

/-- `safeTransfer`: reverts when the balance is insufficient. -/
def safeTransfer (st : CState) (src dst amt : ℕ) : Except String CState :=
  if st.balances src < amt then .error "ERC20: transfer amount exceeds balance"
  else .ok { st with balances := doTransfer st.balances src dst amt }

/-- Append an event. -/
def emitEv (st : CState) (e : Ev) : CState := { st with events := st.events ++ [e] }

/-- `_executeSingleRoute` over an external-call semantics
`env : PRoute → Bool` (did the bridge call succeed): validates the
bridge and the calldata, performs the call and reports its success;
a failed bridge call does not revert. -/
def executeSingleRoute (st : CState) (env : PRoute → Bool) (route : PRoute) (amount : ℕ) :
    Except String (CState × Bool) := do
  req (st.trustedBridges route.bridge = true) "Untrusted bridge"
  req (route.callDataLen > 0) "Empty callData"
  let success := env route
  .ok (emitEv st (.protocolRouteExecuted route.protocol amount success), success)

/-- The `_executeSplitRoute` loop: validates and calls every route in
order, accumulating `allSuccess`; a failed bridge call is recorded but
does not stop the loop. -/
def splitLoop (env : PRoute → Bool) (totalAmount : ℕ) :
    CState → ℕ → Bool → List PRoute → Except String (CState × Bool)
  | st, _, allSuccess, [] => .ok (st, allSuccess)
  | st, amountUsed, allSuccess, route :: rest => do
    req (st.trustedBridges route.bridge = true) "Untrusted bridge"
    req (route.callDataLen > 0) "Empty callData"
    req (amountUsed + route.amount ≤ totalAmount) "Amount overflow"
    let success := env route
    let st' := emitEv st (.protocolRouteExecuted route.protocol route.amount success)
    splitLoop env totalAmount st' (amountUsed + route.amount) (allSuccess && success) rest

/-- `_executeSplitRoute`. -/
def executeSplitRoute (st : CState) (env : PRoute → Bool) (routes : List PRoute)
    (totalAmount : ℕ) : Except String (CState × Bool) := do
  req (routes.length ≥ 2) "Split requires 2+ routes"
  let (st1, allSuccess) ← splitLoop env totalAmount st 0 true routes
  let st2 :=
    match routes with
    | [r1, r2] => emitEv st1 (.routeSplit r1.protocol r1.amount r2.protocol r2.amount)
    | _ => st1
  .ok (st2, allSuccess)

/-- `executeAggregatedRoute`: validates the strategy, pulls the tokens,
collects the protocol fee, executes the routes, and on a failed
execution refunds the net amount to the sender while keeping the fee;
the bridge-call outcome is returned as a boolean, not a revert. -/
def executeAggregatedRoute (st : CState) (env : PRoute → Bool) (sender now sourceToken : ℕ)
    (strategy : RStrategy) : Except String (CState × Bool) := do
  req (now ≤ strategy.deadline) "Strategy expired"
  req (strategy.routes.length > 0) "No routes provided"
  req (strategy.totalAmount > 0) "Invalid amount"
  req (sourceToken ≠ 0) "Invalid token"
  req (strategy.securityScore ≥ st.minGlobalSecurityScore) "Security score below minimum threshold"
  let feePercentage := strategy.estimatedFees * 10000 / strategy.totalAmount
  req (feePercentage ≤ st.maxFeePercentage) "Estimated fees too high"
  (if strategy.strategyType = "split-route" then do
      req (strategy.totalAmount ≥ st.minAmountForSplit) "Amount too small for split routing"
      req (strategy.routes.length ≥ 2 ∧ strategy.routes.length ≤ 5) "Split routing requires 2-5 routes"
    else .ok ())
  let st1 ← safeTransfer st sender st.contractAddr strategy.totalAmount
  let protocolFee := strategy.totalAmount * st.protocolFeeBps / 10000
  let netAmount := strategy.totalAmount - protocolFee
  let st2 ←
    if protocolFee > 0 then safeTransfer st1 st.contractAddr st.feeRecipient protocolFee
    else .ok st1
  let (st3, success) ←
    if strategy.strategyType = "single-route" then
      executeSingleRoute st2 env (strategy.routes.headD default) netAmount
    else if strategy.strategyType = "split-route" then
      executeSplitRoute st2 env strategy.routes netAmount
    else .error "Unknown strategy type"
  let st4 ←
    if success then .ok st3
    else safeTransfer st3 st.contractAddr sender netAmount
  .ok (emitEv st4
    (.aggregatedRouteExecuted strategy.strategyType strategy.routes.length
      strategy.totalAmount success), success)

/-- The success flag `executeAggregatedRoute` computes for a strategy
that passes validation: the single bridge-call outcome for a
single-route strategy, the conjunction of all outcomes for a
split-route strategy. -/
def routesSuccess (env : PRoute → Bool) (strategy : RStrategy) : Bool :=
  if strategy.strategyType = "single-route" then env (strategy.routes.headD default)
  else strategy.routes.foldl (fun a r => a && env r) true

end Flow

namespace Ex

open Agg Bridge Flow

/-- A slow, expensive, high-security Li.Fi quote. -/
def slowSecure : RouteQuote :=
  { id := "rHigh", protocol := "lifi", protocolName := "Li.Fi", tool := some "lifi"
    executionDuration := some 601, totalFee := some 30
    fromAmountUSD := some 100000, toAmountUSD := some 99990, stepsCount := some 1 }

/-- A faster, cheaper, lower-security Across quote. -/
def fastRisky : RouteQuote :=
  { id := "rLow", protocol := "across", protocolName := "Across Protocol", tool := some "across"
    executionDuration := some 300, totalFee := some 25
    fromAmountUSD := some 500, toAmountUSD := some 480, stepsCount := some 6 }

/-- A Li.Fi quote dominated by `lifiGood` on every axis. -/
def lifiBad : RouteQuote :=
  { id := "rA", protocol := "lifi", protocolName := "Li.Fi", tool := some "lifi"
    executionDuration := some 100, totalFee := some 10
    fromAmountUSD := some 500, toAmountUSD := some 480, stepsCount := some 6 }

/-- A Li.Fi quote strictly better than `lifiBad`: faster, cheaper and
safer. -/
def lifiGood : RouteQuote :=
  { id := "rB", protocol := "lifi", protocolName := "Li.Fi", tool := some "lifi"
    executionDuration := some 10, totalFee := some 1
    fromAmountUSD := some 500, toAmountUSD := some 499, stepsCount := some 1 }

/-- An Across quote of middling quality. -/
def acrossMid : RouteQuote :=
  { id := "rC", protocol := "across", protocolName := "Across Protocol", tool := some "across"
    executionDuration := some 50, totalFee := some 5
    fromAmountUSD := some 500, toAmountUSD := some 497, stepsCount := some 2 }

/-- The spec scenario: a Li.Fi quote with fee 0.002 and 20s duration. -/
def specLifi : RouteQuote :=
  { id := "w1", protocol := "lifi", protocolName := "Li.Fi", tool := some "lifi"
    executionDuration := some 20, totalFee := some (2 / 1000)
    fromAmountUSD := some 4000, toAmountUSD := some 3999, stepsCount := some 1 }

/-- The spec scenario: an Across quote with fee 0.003 and 90s duration. -/
def specAcross : RouteQuote :=
  { id := "w2", protocol := "across", protocolName := "Across Protocol", tool := some "across"
    executionDuration := some 90, totalFee := some (3 / 1000)
    fromAmountUSD := some 4000, toAmountUSD := some 3998, stepsCount := some 1 }

/-- A quote whose tool is absent from the protocol security database. -/
def unknownTool : RouteQuote :=
  { id := "u", protocol := "hop", protocolName := "Hop", tool := some "hop"
    executionDuration := some 10, totalFee := some 1
    fromAmountUSD := some 100, toAmountUSD := some 99, stepsCount := some 1 }

/-- An Across route whose raw quote data lacks `exclusiveRelayer` (all
other required `depositV3` fields present). -/
def noRelayerRoute : AcrossRoute :=
  { id := some "q1"
    fromAmount := some "1000000000000000000"
    toAmount := some "999000000000000000"
    inputTokenAddress := some "0xC02aaA39b223FE8D0A0e5C4F27eAD9083C756Cc2"
    outputTokenAddress := some "0x4200000000000000000000000000000000000006"
    outputTokenChainId := some 10
    rawData :=
      { exclusiveRelayer := none
        timestamp := some 1727900000
        fillDeadline := some 1727910000
        exclusivityDeadline := some 0 } }

/-- The same Across route with `exclusiveRelayer` present. -/
def fullRoute : AcrossRoute :=
  { noRelayerRoute with
    rawData := { noRelayerRoute.rawData with exclusiveRelayer := some "0xRelayer" } }

/-- A `SmartAccount` with owner 1, guardians 2 and 3, threshold 2, and a
pending recovery request 0 to new owner 9 confirmed by both guardians at
time 0. -/
def saReady : SA.State :=
  { owner := 1
    guardians := fun a => a = 2 ∨ a = 3
    guardianList := [2, 3]
    guardianCount := 2
    requiredGuardians := 2
    recoveries := fun j =>
      if j = 0 then
        { newOwner := 9, confirmations := 2, confirmed := fun a => a = 2 ∨ a = 3
          timestamp := 0, executed := false }
      else SA.RecoveryReq.init
    recoveryCounter := 1 }

/-- The same account with request 0 only confirmed by guardian 2. -/
def saOneConf : SA.State :=
  { saReady with
    recoveries := fun j =>
      if j = 0 then
        { newOwner := 9, confirmations := 1, confirmed := fun a => a = 2
          timestamp := 0, executed := false }
      else SA.RecoveryReq.init }

/-- A world for `batchExecute` witnesses: the world is the list of
targets successfully called so far; a call to target 0 reverts. -/
def batchEnv : SA.Call → List ℕ → Option (List ℕ) :=
  fun c w => if c.to = 0 then none else some (w ++ [c.to])

/-- A batch whose second sub-call fails. -/
def batchCalls : List SA.Call := [⟨1, 0, 4⟩, ⟨0, 0, 4⟩, ⟨2, 0, 4⟩]

/-- An aggregator contract state: the contract is address 30, the fee
recipient 20, bridge 500 trusted, and the sender 10 holds 1000000
source tokens. -/
def flowState : CState :=
  { balances := fun a => if a = 10 then 1000000 else 0
    trustedBridges := fun b => b = 500 ∨ b = 501
    protocolFeeBps := 10
    feeRecipient := 20
    minGlobalSecurityScore := 70
    maxFeePercentage := 200
    minAmountForSplit := 500000
    contractAddr := 30
    events := [] }

/-- A single-route strategy over the trusted bridge 500. -/
def flowSingle : RStrategy :=
  { strategyType := "single-route"
    routes := [{ protocol := "Across", bridge := 500, callDataLen := 4, value := 0, amount := 999000 }]
    totalAmount := 1000000
    minOutput := 990000
    deadline := 100
    securityScore := 80
    estimatedTime := 20
    estimatedFees := 100 }

/-- A split-route strategy over the trusted bridges 500 and 501. -/
def flowSplit : RStrategy :=
  { strategyType := "split-route"
    routes := [{ protocol := "Across", bridge := 500, callDataLen := 4, value := 0, amount := 699300 },
               { protocol := "LiFi", bridge := 501, callDataLen := 4, value := 0, amount := 299700 }]
    totalAmount := 1000000
    minOutput := 990000
    deadline := 100
    securityScore := 80
    estimatedTime := 90
    estimatedFees := 100 }

/-- A bridge-call semantics where every external call fails. -/
def envFail : PRoute → Bool := fun _ => false

/-- A bridge-call semantics where only bridge 500 fails. -/
def envFail500 : PRoute → Bool := fun r => r.bridge ≠ 500

/-- The state after `executeRecovery` succeeds on `saReady`. -/
def afterExec : SA.State := SA.execRecoveryInternal saReady 0

/-- The state returned by the auto-executing `confirmRecovery` on
`saOneConf`. -/
def afterConfirm : SA.State :=
  match SA.confirmRecovery saOneConf 3 172800 0 with
  | .ok s => s
  | .error _ => saOneConf

/-- A run of purely legitimate `SmartAccount` operations: construct
with owner 1 and guardians 2 and 3 (threshold 2), guardian 2 initiates
recovery proposing guardian 3 as the new owner, guardian 3 confirms
after the delay (which auto-executes the recovery). -/
def ownerGuardianPath : Except String SA.State := do
  let s0 ← SA.construct 1 [2, 3] 2 7
  let s1 ← SA.initiateRecovery s0 2 0 3
  SA.confirmRecovery s1 3 172800 0

end Ex

end OmniFlow

open OmniFlow OmniFlow.Agg OmniFlow.Bridge OmniFlow.Flow

/-- Claim C2 (code bug): the owner-not-guardian invariant is not
maintained.  First, the `SmartAccount` constructor accepts a guardian
list containing the owner, so `constructor(owner = 1, guardians = [1],
requiredGuardians = 1)` reaches a state with `owner = 1` and
`guardians[1] = true` — the very condition `addGuardian` rejects with
"owner cannot be guardian".  Second, even from a clean construction the
invariant breaks through legitimate operations alone: a recovery
proposing guardian 3 as new owner leaves 3 both owner and guardian
after execution. -/
theorem smartAccount_constructor_admits_owner_as_guardian :
    (OmniFlow.SA.construct 1 [1] 1 7).map
        (fun s => (s.owner, s.guardians 1, s.guardianCount, s.requiredGuardians)) =
      .ok (1, true, 1, 1) ∧
      OmniFlow.Ex.ownerGuardianPath.map (fun s => (s.owner, s.guardians s.owner)) =
        .ok (3, true) := ⟨rfl, rfl⟩

/-- Claim C9: when the raw Across quote lacks `exclusiveRelayer`,
calldata construction fails with the missing-field error and
`exclusiveRelayer` is among the listed field names; when construction
succeeds, the encoded `exclusiveRelayer` is exactly the nonempty quote
value, never a substituted zero-address or other default. -/
theorem generateAcrossCallData_spec (r : AcrossRoute) (user : String) :
    (truthyStr r.rawData.exclusiveRelayer = false →
      generateAcrossCallData r user = .error (acrossMissingMsg (missingFields r)) ∧
        "exclusiveRelayer" ∈ missingFields r)
  ∧ (∀ args, generateAcrossCallData r user = .ok args →
      r.rawData.exclusiveRelayer = some args.exclusiveRelayer ∧ args.exclusiveRelayer ≠ "") := by
  constructor
  · intro h
    have hmem : "exclusiveRelayer" ∈ missingFields r := by
      simp [missingFields, h]
    refine ⟨?_, hmem⟩
    have hne : missingFields r ≠ [] := fun hnil => by simp [hnil] at hmem
    simp [generateAcrossCallData, List.isEmpty_iff, hne]
  · intro args h
    by_cases hrel : truthyStr r.rawData.exclusiveRelayer = true
    · match hx : r.rawData.exclusiveRelayer with
      | none => simp [truthyStr, hx] at hrel
      | some s =>
        have hs : s ≠ "" := by
          by_contra hc
          simp [truthyStr, hx, hc] at hrel
        by_cases hempty : (missingFields r).isEmpty = true
        · simp [generateAcrossCallData, hempty] at h
          refine ⟨?_, ?_⟩
          · rw [← h]
            simp [hx]
          · rw [← h]
            simpa [hx] using hs
        · simp [generateAcrossCallData, hempty] at h
    · have hmem : "exclusiveRelayer" ∈ missingFields r := by
        simp [missingFields, eq_false_of_ne_true hrel]
      have hne : (missingFields r).isEmpty = false := by
        rcases hm : missingFields r with _ | _
        · rw [hm] at hmem; simp at hmem
        · simp
      simp [generateAcrossCallData, hne] at h

/-- Witness for C9 at `Ex.noRelayerRoute`: the constructed error message
names `exclusiveRelayer`, and on the completed quote the relayer placed
in the calldata is the quote relayer itself. -/
theorem generateAcrossCallData_spec_witness :
    OmniFlow.Bridge.generateAcrossCallData OmniFlow.Ex.noRelayerRoute "0xUser" =
        .error "Across 路由数据不完整，缺少以下必需字段: exclusiveRelayer" ∧
      "exclusiveRelayer" ∈ missingFields OmniFlow.Ex.noRelayerRoute ∧
      (OmniFlow.Bridge.generateAcrossCallData OmniFlow.Ex.fullRoute "0xUser").map
          DepositV3Args.exclusiveRelayer = .ok "0xRelayer" := by
  have h1 := (generateAcrossCallData_spec OmniFlow.Ex.noRelayerRoute "0xUser").1 (by rfl)
  have h2 := (generateAcrossCallData_spec OmniFlow.Ex.fullRoute "0xUser").2
  exact ⟨h1.1.trans (by rfl), h1.2, by rfl⟩

open OmniFlow.SA in
/-- The `batchExecute` loop is sequential: executing an appended list
threads the world through the first part and then the second. -/
theorem batchGo_append {σ : Type} (env : Call → σ → Option σ) (l1 l2 : List Call) :
    ∀ w : σ, batchGo env w (l1 ++ l2) = (batchGo env w l1).bind (fun w1 => batchGo env w1 l2) := by
  induction l1 with
  | nil => intro w; simp [batchGo]
  | cons c cs ih =>
    intro w
    simp only [List.cons_append, batchGo]
    cases env c w with
    | none => simp
    | some w1 => simpa using ih w1

open OmniFlow.SA in
/-- Claim C4: `batchExecute` rejects an empty calls array; it executes
the sub-calls in array order (the world is threaded left to right); and
it is all-or-nothing: if any sub-call fails, the whole transaction
reverts and the post-transaction world is the pre-transaction world,
regardless of the effects of sub-calls before or after the failing
one. -/
theorem batchExecute_spec {σ : Type} (env : Call → σ → Option σ) (owner : ℕ) (w : σ)
    (calls : List Call) :
    (batchExecute env owner owner w [] = none)
  ∧ (calls ≠ [] → batchExecute env owner owner w calls = batchGo env w calls)
  ∧ (∀ l1 l2 w0, batchGo env w0 (l1 ++ l2) = (batchGo env (σ := σ) w0 l1).bind
      (fun w1 => batchGo env w1 l2))
  ∧ (∀ first fail rest w1, calls = first ++ fail :: rest → batchGo env w first = some w1 →
      env fail w1 = none →
        batchExecute env owner owner w calls = none ∧ batchTxResult env owner owner w calls = w) := by
  refine ⟨by simp [batchExecute], fun h => by simp [batchExecute, h, List.isEmpty_iff],
    fun l1 l2 w0 => batchGo_append env l1 l2 w0, ?_⟩
  intro first fail rest w1 hsplit h1 h2
  have hgo : batchGo env w calls = none := by
    rw [hsplit, batchGo_append env first (fail :: rest) w, h1]
    simp [batchGo, h2]
  have hne : calls ≠ [] := by
    rw [hsplit]; intro hc; exact absurd (List.append_eq_nil.mp hc).2 (by simp)
  have hbe : batchExecute env owner owner w calls = none := by
    simp [batchExecute, List.isEmpty_iff, hne, hgo]
  exact ⟨hbe, by simp [batchTxResult, hbe]⟩

open OmniFlow.SA OmniFlow.Ex in
/-- Witness for C4: in the world-as-call-log model, the batch
`[call 1, call 0, call 2]` whose second sub-call reverts leaves the
original (empty) log: the successful first sub-call does not persist. -/
theorem batchExecute_spec_witness :
    batchExecute batchEnv 1 1 ([] : List ℕ) [] = none ∧
      batchExecute batchEnv 1 1 ([] : List ℕ) batchCalls = none ∧
      batchTxResult batchEnv 1 1 ([] : List ℕ) batchCalls = [] := by
  have h := batchExecute_spec batchEnv 1 ([] : List ℕ) batchCalls
  have h4 := h.2.2.2 [⟨1, 0, 4⟩] ⟨0, 0, 4⟩ [⟨2, 0, 4⟩] [1] (by rfl) (by rfl) (by rfl)
  exact ⟨h.1, h4.1, h4.2⟩

open OmniFlow.SA in
/-- Claim C1: `executeRecovery` succeeds exactly when the request has at
least `requiredGuardians` confirmations, the 2-day `RECOVERY_PERIOD`
has elapsed since initiation, and the request is not yet executed; on
success the owner becomes the proposed owner and the request is marked
executed (a failed call is a revert and leaves the state untouched).
The auto-execution inside `confirmRecovery` obeys the same condition:
after a successful confirmation, the request is executed and the owner
swapped iff the incremented confirmation count meets the threshold and
the delay has elapsed. -/
theorem executeRecovery_spec (s : State) (now id : ℕ) :
    ((executeRecovery s now id).isOk = true ↔
      ((s.recoveries id).confirmations ≥ s.requiredGuardians ∧
        now ≥ (s.recoveries id).timestamp + RECOVERY_PERIOD ∧
        (s.recoveries id).executed = false))
  ∧ (∀ s', executeRecovery s now id = .ok s' →
      s'.owner = (s.recoveries id).newOwner ∧ (s'.recoveries id).executed = true)
  ∧ (∀ sender s', confirmRecovery s sender now id = .ok s' →
      (((s'.recoveries id).executed = true ∧ s'.owner = (s.recoveries id).newOwner) ↔
        ((s.recoveries id).confirmations + 1 ≥ s.requiredGuardians ∧
          now ≥ (s.recoveries id).timestamp + RECOVERY_PERIOD))) := by
  refine ⟨?_, ?_, ?_⟩
  · simp only [executeRecovery, req, bind, Except.bind]
    split_ifs with h1 h2 h3 <;> simp_all [Except.isOk, Except.toBool]
  · intro s' h
    simp only [executeRecovery, req, bind, Except.bind] at h
    split_ifs at h with h1 h2 h3
    simp only [Except.ok.injEq] at h
    subst h
    simp [execRecoveryInternal]
  · intro sender s' h
    simp only [confirmRecovery, req, bind, Except.bind] at h
    split_ifs at h with h1 h2 h3 h4 h5
    · -- auto-execution branch
      simp only [Except.ok.injEq] at h
      subst h
      simp only [execRecoveryInternal]
      constructor
      · intro _; exact ⟨h5.1, h5.2⟩
      · intro _; simp
    · -- no auto-execution
      simp only [Except.ok.injEq] at h
      subst h
      constructor
      · intro hc
        exact absurd hc.1 (by simp [h3])
      · intro hc
        exact absurd hc h5

open OmniFlow OmniFlow.SA in
/-- Witness for C1: with guardians 2 and 3 both confirmed and the delay
elapsed, `executeRecovery` succeeds and the owner becomes 9; one second
before the delay it reverts; and the second confirmation auto-executes
once the delay has elapsed. -/
theorem executeRecovery_spec_witness :
    (executeRecovery Ex.saReady 172800 0).isOk = true ∧
      Ex.afterExec.owner = 9 ∧ (Ex.afterExec.recoveries 0).executed = true ∧
      (executeRecovery Ex.saReady 172799 0).isOk = false ∧
      (Ex.afterConfirm.recoveries 0).executed = true ∧ Ex.afterConfirm.owner = 9 := by
  have h1 := (executeRecovery_spec Ex.saReady 172800 0).1.mpr (by decide)
  have h2 := (executeRecovery_spec Ex.saReady 172800 0).2.1 Ex.afterExec (by rfl)
  have h3 : ¬((executeRecovery Ex.saReady 172799 0).isOk = true) := fun hc =>
    absurd ((executeRecovery_spec Ex.saReady 172799 0).1.mp hc) (by decide)
  have h4 := ((executeRecovery_spec Ex.saOneConf 172800 0).2.2 3 Ex.afterConfirm (by rfl)).mpr
    (by decide)
  exact ⟨h1, h2.1, h2.2, eq_false_of_ne_true h3, h4.1, h4.2⟩

open OmniFlow.Agg in
/-- Claim C7: the security scorer is the pure function `analyzeRoute` of
the route input (identical input yields identical output by
definition).  When the protocol key (`tool || protocol`) is not in the
static reputation table the route gets `overallSecurity = 0` and the
single data-unavailable risk factor, never a positive default; when it
is known (table scores are nonzero) the overall score is the rounded
30/25/20/15/10-weighted sum of the sub-scores, unavailable sub-scores
defaulting to 75. -/
theorem analyzeRoute_spec (r : RouteQuote) :
    (lookupProtocolScore (jsOrOptStr r.tool r.protocol) = none →
      (analyzeRoute r).overallSecurity = 0 ∧
        (analyzeRoute r).riskFactors = ["协议安全数据不可用"])
  ∧ (∀ p : ℚ, lookupProtocolScore (jsOrOptStr r.tool r.protocol) = some p → p ≠ 0 →
      (analyzeRoute r).overallSecurity =
        (jsRound (p * (3 / 10) + jsOrOptQ (assessLiquiditySecurity r) 75 * (25 / 100) +
          jsOrOptQ (assessTimeSecurity r) 75 * (2 / 10) +
          jsOrOptQ (assessFeeReasonableness r) 75 * (15 / 100) +
          jsOrOptQ (assessRouteComplexity r) 75 * (1 / 10)) : ℤ)) := by
  constructor
  · intro h
    simp [analyzeRoute, h, truthyQ]
  · intro p hp hp0
    simp [analyzeRoute, hp, truthyQ, hp0]

open OmniFlow OmniFlow.Agg in
/-- Witness for C7: the unknown tool `hop` scores 0 with the
data-unavailable risk factor; the known tool `across` (table score 89)
on `Ex.fastRisky` scores round(89·0.3 + 60·0.25 + 75·0.2 + 60·0.15 +
60·0.1) = 72. -/
theorem analyzeRoute_spec_witness :
    (analyzeRoute Ex.unknownTool).overallSecurity = 0 ∧
      (analyzeRoute Ex.unknownTool).riskFactors = ["协议安全数据不可用"] ∧
      (analyzeRoute Ex.fastRisky).overallSecurity = 72 := by
  have h1 := (analyzeRoute_spec Ex.unknownTool).1 (by rfl)
  have h2 := (analyzeRoute_spec Ex.fastRisky).2 89 (by rfl) (by norm_num)
  refine ⟨h1.1, h1.2, h2.trans ?_⟩
  norm_num [Ex.fastRisky, assessLiquiditySecurity, assessTimeSecurity,
    assessFeeReasonableness, assessRouteComplexity, jsOrOptQ, jsRound]

open OmniFlow.Agg in
/-- No routes are collected exactly when every successful provider
returned an empty route list. -/
theorem collectRoutes_nil_iff (results : List (Except Unit (List RouteQuote))) :
    collectRoutes results = [] ↔ (∀ rs, Except.ok rs ∈ results → rs = []) := by
  induction results with
  | nil => simp [collectRoutes]
  | cons e rest ih =>
    cases e with
    | error u =>
      simp only [collectRoutes, List.map_cons, List.flatten_cons] at ih ⊢
      simpa using ih
    | ok rs =>
      simp only [collectRoutes, List.map_cons, List.flatten_cons, List.append_eq_nil] at ih ⊢
      constructor
      · rintro ⟨h1, h2⟩ rs' hmem
        rcases List.mem_cons.mp hmem with h | h
        · cases h; exact h1
        · exact (ih.mp h2) rs' h
      · intro h
        exact ⟨h rs (List.mem_cons_self _ _), ih.mpr (fun rs' hm => h rs' (List.mem_cons_of_mem _ hm))⟩

open OmniFlow.Agg in
/-- A strategy of `baseStrategies` is the best-single-route strategy of
some input route. -/
theorem mem_baseStrategies (routes : List AnalyzedRoute) (amount : ℚ) (t : Strategy)
    (ht : t ∈ baseStrategies routes amount) :
    ∃ b ∈ routes, t = bestSingleStrategy amount b := by
  unfold baseStrategies at ht
  split at ht
  · simp at ht
  · rename_i best tail hsort
    simp only [List.mem_singleton] at ht
    have hmem : best ∈ routes.insertionSort (fun a b => routeScore b ≤ routeScore a) := by
      rw [hsort]; exact List.mem_cons_self _ _
    exact ⟨best, (List.mem_insertionSort _).mp hmem, ht⟩

open OmniFlow.Agg in
/-- Every strategy synthesized by `preSortStrategies` is built from
routes of the input list. -/
theorem mem_preSortStrategies (routes : List AnalyzedRoute) (amount : ℚ) (s : Strategy)
    (hs : s ∈ preSortStrategies routes amount) :
    (∃ b ∈ routes, s = bestSingleStrategy amount b) ∨
      (∃ r1 ∈ routes, ∃ r2 ∈ routes, s = splitStrategy amount r1 r2) := by
  unfold preSortStrategies at hs
  split at hs
  · split_ifs at hs with hamt
    · split at hs
      · rename_i r1 t1 r2 t2 hg1 hg2
        rcases List.mem_append.mp hs with h | h
        · exact Or.inl (mem_baseStrategies routes amount s h)
        · have hr1 : r1 ∈ routes := by
            have hm := hg1.symm ▸ List.mem_cons_self r1 t1
            simp only [groupOf, List.mem_filter] at hm
            exact hm.1
          have hr2 : r2 ∈ routes := by
            have hm := hg2.symm ▸ List.mem_cons_self r2 t2
            simp only [groupOf, List.mem_filter] at hm
            exact hm.1
          simp only [List.mem_singleton] at h
          exact Or.inr ⟨r1, hr1, r2, hr2, h⟩
      · exact Or.inl (mem_baseStrategies routes amount s hs)
    · exact Or.inl (mem_baseStrategies routes amount s hs)
  · exact Or.inl (mem_baseStrategies routes amount s hs)

open OmniFlow.Agg in
/-- Routes appearing in synthesized strategies come from the input. -/
theorem strategy_routes_mem (routes : List AnalyzedRoute) (amount : ℚ) (s : Strategy)
    (hs : s ∈ generateMultiProtocolSplits routes amount) :
    ∀ ar ∈ s.routes, ar ∈ routes := by
  have hpre : s ∈ preSortStrategies routes amount :=
    (List.mem_insertionSort _).mp hs
  intro ar har
  rcases mem_preSortStrategies routes amount s hpre with ⟨b, hb, rfl⟩ | ⟨r1, h1, r2, h2, rfl⟩
  · simp only [bestSingleStrategy, List.mem_singleton] at har
    exact har ▸ hb
  · simp only [splitStrategy] at har
    rcases List.mem_cons.mp har with h | h
    · exact h ▸ h1
    · simp only [List.mem_singleton] at h
      exact h ▸ h2

open OmniFlow.Agg in
/-- Claim C5: over N settled provider queries of which M failed (a
failure or timeout is caught and contributes no routes, isolated from
the others), `getAggregatedRoutes` raises the no-routes error exactly
when nothing was collected; if all N fail it raises the error; if M < N
and every success returned at least one route it returns, without
error, the strategies synthesized from the collected routes; and every
route inside a returned strategy is an analyzed collected route. -/
theorem getAggregatedRoutes_spec (results : List (Except Unit (List RouteQuote))) (amount : ℚ) :
    ((getAggregatedRoutes results amount).isOk = true ↔ collectRoutes results ≠ [])
  ∧ (results.countP (fun e => !e.isOk) = results.length →
      getAggregatedRoutes results amount = .error "所有协议都无法提供路由")
  ∧ (results.countP (fun e => !e.isOk) < results.length →
      (∀ rs, Except.ok rs ∈ results → rs ≠ []) →
      getAggregatedRoutes results amount =
        .ok (generateMultiProtocolSplits (analyzeBasicRoutes (collectRoutes results)) amount))
  ∧ (∀ strats, getAggregatedRoutes results amount = .ok strats →
      ∀ s ∈ strats, ∀ ar ∈ s.routes, ∃ rq ∈ collectRoutes results, ar = analyzeRoute rq) := by
  refine ⟨?_, ?_, ?_, ?_⟩
  · by_cases h : (collectRoutes results).isEmpty
    · simp [getAggregatedRoutes, h, Except.isOk, Except.toBool, List.isEmpty_iff.mp h]
    · have hne : collectRoutes results ≠ [] := by
        intro hnil; exact h (by simp [hnil])
      simp [getAggregatedRoutes, hne, Except.isOk, Except.toBool]
  · intro hM
    have hall := List.countP_eq_length.mp hM
    have hnil : collectRoutes results = [] := by
      refine (collectRoutes_nil_iff results).mpr (fun rs hmem => ?_)
      have := hall _ hmem
      simp [Except.isOk, Except.toBool] at this
    simp [getAggregatedRoutes, hnil]
  · intro hM hok
    have hex : ∃ e ∈ results, (!e.isOk) = false := by
      by_contra hc
      push_neg at hc
      have : results.countP (fun e => !e.isOk) = results.length :=
        List.countP_eq_length.mpr (fun a ha => by
          cases hb : (!a.isOk) with
          | false => exact absurd hb (hc a ha)
          | true => rfl)
      omega
    obtain ⟨e, hmem, he⟩ := hex
    have hne : collectRoutes results ≠ [] := by
      intro hnil
      cases e with
      | error u => simp [Except.isOk, Except.toBool] at he
      | ok rs =>
        exact absurd ((collectRoutes_nil_iff results).mp hnil rs hmem) (hok rs hmem)
    simp [getAggregatedRoutes, hne]
  · intro strats h s hs ar har
    have hne : (collectRoutes results).isEmpty = false := by
      cases hE : (collectRoutes results).isEmpty with
      | true => simp [getAggregatedRoutes, hE] at h
      | false => rfl
    have hstr : strats = generateMultiProtocolSplits (analyzeBasicRoutes (collectRoutes results)) amount := by
      simp [getAggregatedRoutes, hne] at h
      exact h.symm
    subst hstr
    have hmem := strategy_routes_mem _ amount s hs ar har
    simp only [analyzeBasicRoutes, List.mem_map] at hmem
    obtain ⟨rq, hrq, heq⟩ := hmem
    exact ⟨rq, hrq, heq.symm⟩

open OmniFlow OmniFlow.Agg in
/-- Witness for C5: with three providers of which the two outer ones
fail, aggregation succeeds on the middle provider routes alone; with
every provider failing it raises the no-routes error. -/
theorem getAggregatedRoutes_spec_witness :
    (getAggregatedRoutes [.error (), .ok [Ex.fastRisky], .error ()] 1).isOk = true ∧
      getAggregatedRoutes [.error (), .ok [Ex.fastRisky], .error ()] 1 =
        .ok (generateMultiProtocolSplits (analyzeBasicRoutes [Ex.fastRisky]) 1) ∧
      getAggregatedRoutes [.error (), .error ()] 1 = .error "所有协议都无法提供路由" := by
  have h := getAggregatedRoutes_spec [.error (), .ok [Ex.fastRisky], .error ()] 1
  have hall := (getAggregatedRoutes_spec [.error (), .error ()] 1).2.1 (by decide)
  have hnonempty : ∀ rs, Except.ok rs ∈
      ([.error (), .ok [Ex.fastRisky], .error ()] : List (Except Unit (List RouteQuote))) →
      rs ≠ [] := by
    intro rs hmem
    simp only [List.mem_cons, List.not_mem_nil, or_false] at hmem
    rcases hmem with hh | hh | hh <;> simp_all
  have hM : ([.error (), .ok [Ex.fastRisky], .error ()] :
      List (Except Unit (List RouteQuote))).countP (fun e => !e.isOk) <
      ([.error (), .ok [Ex.fastRisky], .error ()] :
        List (Except Unit (List RouteQuote))).length := by
    simp [List.countP, List.countP.go, Except.isOk, Except.toBool]
  have h3 := h.2.2.1 hM hnonempty
  refine ⟨h.1.mpr ?_, h3, hall⟩
  simp [collectRoutes]

open OmniFlow.Agg in
/-- Table lookups evaluated (kernel-reducible). -/
theorem lookup_lifi : lookupProtocolScore "lifi" = some 92 := rfl

open OmniFlow.Agg in
theorem lookup_across : lookupProtocolScore "across" = some 89 := rfl

open OmniFlow.Agg in
theorem lookup_hop : lookupProtocolScore "hop" = none := rfl

open OmniFlow OmniFlow.Agg in
/-- Claim C6 amended: the synthesizer output is sorted in descending
order of `strategySortKey` = `1000 / max(estimatedTime, 60) +
100 / max(totalFees, 1)` — a speed/fee score that does not involve
`securityScore` (the security-weighted `calculateStrategyScore` is
defined but unused). -/
theorem generateMultiProtocolSplits_sorted (routes : List AnalyzedRoute) (amount : ℚ) :
    List.Sorted (fun a b => strategySortKey b ≤ strategySortKey a)
      (generateMultiProtocolSplits routes amount) := by
  haveI : IsTotal Strategy (fun a b => strategySortKey b ≤ strategySortKey a) :=
    ⟨fun a b => le_total _ _⟩
  haveI : IsTrans Strategy (fun a b => strategySortKey b ≤ strategySortKey a) :=
    ⟨fun a b c h1 h2 => le_trans h2 h1⟩
  unfold generateMultiProtocolSplits
  exact List.sorted_insertionSort _ _

open OmniFlow OmniFlow.Agg in
/-- Claim C6 counterexample: on the two quotes `Ex.slowSecure` and
`Ex.fastRisky` with amount 1, the synthesizer returns the best-single
strategy (composite score 31) before the split strategy (composite
score 1984154/57095 ≈ 34.75), so the output is not sorted in descending
order of the composite `securityScore·0.4 + speedFactor·0.3 +
feeFactor·0.3`. -/
theorem generateMultiProtocolSplits_not_sorted_by_composite :
    ¬ List.Sorted (fun a b => calculateStrategyScore b ≤ calculateStrategyScore a)
      (generateMultiProtocolSplits (analyzeBasicRoutes [Ex.slowSecure, Ex.fastRisky]) 1) := by
  intro hs
  have heval : List.map calculateStrategyScore
      (generateMultiProtocolSplits (analyzeBasicRoutes [Ex.slowSecure, Ex.fastRisky]) 1) =
      [31, 1984154 / 57095] := by
    norm_num [generateMultiProtocolSplits, preSortStrategies, baseStrategies, analyzeBasicRoutes,
      analyzeRoute, Ex.slowSecure, Ex.fastRisky, lookup_lifi, lookup_across, jsOrOptStr,
      jsOrOptQ, jsOrStr, jsOrQ, truthyQ, assessLiquiditySecurity, assessTimeSecurity,
      assessFeeReasonableness, assessRouteComplexity, identifyRealRiskFactors, jsRound,
      routeScore, protocolKeys, insertKey, groupOf, bestSingleStrategy, bestSingleStrategy.r1Fee,
      splitStrategy, splitFee, strategySortKey, calculateStrategyScore, List.insertionSort,
      List.orderedInsert, List.foldl, List.filter, Int.floor_eq_iff]
  have hmap : List.Sorted (fun x y : ℚ => y ≤ x)
      (List.map calculateStrategyScore
        (generateMultiProtocolSplits (analyzeBasicRoutes [Ex.slowSecure, Ex.fastRisky]) 1)) :=
    hs.map _ (fun a b h => h)
  rw [heval] at hmap
  have hle := List.rel_of_sorted_cons hmap _ (List.mem_singleton_self _)
  norm_num at hle

open OmniFlow OmniFlow.Agg in
/-- Claim C8 amended: whenever at least two distinct providers have
routes and the amount exceeds the 0.5 split threshold, a
multi-protocol-split strategy is proposed over the FIRST route of each
of the first two provider groups (in aggregation order; not the
top-ranked routes), allocating 70 and 30 percent of the amount, with
estimated time the max of the two durations, fees the 70/30-weighted
sum, and security the rounded 70/30-weighted blend. -/
theorem splitStrategy_proposed (routes : List AnalyzedRoute) (amount : ℚ) (k1 k2 : String)
    (ks : List String) (r1 r2 : AnalyzedRoute) (t1 t2 : List AnalyzedRoute)
    (hk : protocolKeys routes = k1 :: k2 :: ks)
    (ha : amount > 1 / 2)
    (h1 : groupOf routes k1 = r1 :: t1)
    (h2 : groupOf routes k2 = r2 :: t2) :
    splitStrategy amount r1 r2 ∈ generateMultiProtocolSplits routes amount ∧
      (splitStrategy amount r1 r2).strategy = "multi-protocol-split" ∧
      (splitStrategy amount r1 r2).estimatedTime =
        max (jsOrOptQ r1.route.executionDuration 0) (jsOrOptQ r2.route.executionDuration 0) ∧
      (splitStrategy amount r1 r2).totalFees = splitFee r1 * (7 / 10) + splitFee r2 * (3 / 10) ∧
      (splitStrategy amount r1 r2).securityScore =
        ((jsRound (jsOrQ r1.overallSecurity 75 * (7 / 10) +
          jsOrQ r2.overallSecurity 75 * (3 / 10))) : ℤ) ∧
      (splitStrategy amount r1 r2).splits.map SplitEntry.amount =
        [amount * (7 / 10), amount * (3 / 10)] ∧
      (splitStrategy amount r1 r2).splits.map SplitEntry.percentage = [70, 30] := by
  refine ⟨?_, rfl, rfl, rfl, rfl, rfl, rfl⟩
  apply (List.mem_insertionSort _).mpr
  have hpre : preSortStrategies routes amount =
      baseStrategies routes amount ++ [splitStrategy amount r1 r2] := by
    unfold preSortStrategies
    rw [hk]
    show (if amount > 1 / 2 then _ else _) = _
    rw [if_pos ha, h1, h2]
  rw [hpre]
  exact List.mem_append_right _ (List.mem_singleton_self _)

open OmniFlow OmniFlow.Agg in
/-- Witness for C8, the spec scenario: amount 1, fees 0.002 and 0.003,
durations 20s and 90s; the proposed split carries amounts 0.7 and 0.3,
aggregate estimatedTime max(20, 90) = 90, and aggregate totalFees
0.002·0.7 + 0.003·0.3 = 0.0023. -/
theorem splitStrategy_proposed_witness :
    splitStrategy 1 (analyzeRoute Ex.specLifi) (analyzeRoute Ex.specAcross) ∈
        generateMultiProtocolSplits (analyzeBasicRoutes [Ex.specLifi, Ex.specAcross]) 1 ∧
      (splitStrategy 1 (analyzeRoute Ex.specLifi) (analyzeRoute Ex.specAcross)).strategy =
        "multi-protocol-split" ∧
      (splitStrategy 1 (analyzeRoute Ex.specLifi) (analyzeRoute Ex.specAcross)).totalFees =
        23 / 10000 ∧
      (splitStrategy 1 (analyzeRoute Ex.specLifi) (analyzeRoute Ex.specAcross)).estimatedTime = 90 ∧
      (splitStrategy 1 (analyzeRoute Ex.specLifi) (analyzeRoute Ex.specAcross)).splits.map
        SplitEntry.amount = [7 / 10, 3 / 10] := by
  have h := splitStrategy_proposed (analyzeBasicRoutes [Ex.specLifi, Ex.specAcross]) 1
    "lifi" "across" [] (analyzeRoute Ex.specLifi) (analyzeRoute Ex.specAcross) [] []
    (by rfl) (by norm_num) (by rfl) (by rfl)
  refine ⟨h.1, h.2.1, ?_, ?_, ?_⟩
  · rw [h.2.2.2.1]
    norm_num [splitFee, analyzeRoute, Ex.specLifi, Ex.specAcross, lookup_lifi, lookup_across,
      jsOrOptStr, truthyQ, jsOrOptQ]
  · rw [h.2.2.1]
    norm_num [analyzeRoute, Ex.specLifi, Ex.specAcross, lookup_lifi, lookup_across,
      jsOrOptStr, truthyQ, jsOrOptQ]
  · rw [h.2.2.2.2.2.1]
    norm_num

open OmniFlow OmniFlow.Agg in
/-- Claim C8 counterexample: with Li.Fi routes `[lifiBad, lifiGood]`
and Across route `acrossMid` at amount 1, the unique proposed
multi-protocol-split uses `lifiBad` — the first-listed Li.Fi route —
even though `lifiGood`, from the same provider, outranks it on the
route score and on every axis (faster, cheaper, higher security), so
the split is not over the two top-ranked distinct-provider routes. -/
theorem split_uses_first_listed_not_top_ranked :
    ((generateMultiProtocolSplits (analyzeBasicRoutes [Ex.lifiBad, Ex.lifiGood, Ex.acrossMid]) 1).filter
        (fun s => s.strategy = "multi-protocol-split")) =
      [splitStrategy 1 (analyzeRoute Ex.lifiBad) (analyzeRoute Ex.acrossMid)] ∧
      (analyzeRoute Ex.lifiGood).route.protocol = (analyzeRoute Ex.lifiBad).route.protocol ∧
      routeScore (analyzeRoute Ex.lifiGood) > routeScore (analyzeRoute Ex.lifiBad) ∧
      jsOrOptQ (analyzeRoute Ex.lifiGood).route.executionDuration 0 <
        jsOrOptQ (analyzeRoute Ex.lifiBad).route.executionDuration 0 ∧
      splitFee (analyzeRoute Ex.lifiGood) < splitFee (analyzeRoute Ex.lifiBad) ∧
      (analyzeRoute Ex.lifiGood).overallSecurity > (analyzeRoute Ex.lifiBad).overallSecurity := by
  refine ⟨?_, by rfl, ?_, ?_, ?_, ?_⟩
  · norm_num [generateMultiProtocolSplits, preSortStrategies, baseStrategies, analyzeBasicRoutes,
      analyzeRoute, Ex.lifiBad, Ex.lifiGood, Ex.acrossMid, lookup_lifi, lookup_across, jsOrOptStr,
      jsOrOptQ, jsOrStr, jsOrQ, truthyQ, assessLiquiditySecurity, assessTimeSecurity,
      assessFeeReasonableness, assessRouteComplexity, identifyRealRiskFactors, jsRound,
      routeScore, protocolKeys, insertKey, groupOf, bestSingleStrategy, bestSingleStrategy.r1Fee,
      splitStrategy, splitFee, strategySortKey, List.insertionSort,
      List.orderedInsert, List.foldl, List.filter_cons, Int.floor_eq_iff]
    decide
  · norm_num [routeScore, analyzeRoute, Ex.lifiBad, Ex.lifiGood, lookup_lifi, jsOrOptStr,
      truthyQ, jsOrOptQ]
  · norm_num [analyzeRoute, Ex.lifiBad, Ex.lifiGood, lookup_lifi, jsOrOptStr, truthyQ, jsOrOptQ]
  · norm_num [splitFee, analyzeRoute, Ex.lifiBad, Ex.lifiGood, lookup_lifi, jsOrOptStr, truthyQ,
      jsOrOptQ]
  · norm_num [analyzeRoute, Ex.lifiBad, Ex.lifiGood, lookup_lifi, jsOrOptStr, truthyQ, jsOrOptQ,
      assessLiquiditySecurity, assessTimeSecurity, assessFeeReasonableness,
      assessRouteComplexity, jsOrOptQ, jsRound, Int.floor_eq_iff]

open OmniFlow OmniFlow.Flow in
/-- The split loop never reverts when every route is trusted with
nonempty calldata and the amounts fit: it emits one event per route (in
order) and accumulates the conjunction of the call outcomes. -/
theorem splitLoop_run (env : PRoute → Bool) (totalAmount : ℕ) :
    ∀ (routes : List PRoute) (st : CState) (used : ℕ) (acc : Bool),
      (∀ r ∈ routes, st.trustedBridges r.bridge = true ∧ 0 < r.callDataLen) →
      used + (routes.map PRoute.amount).sum ≤ totalAmount →
      splitLoop env totalAmount st used acc routes =
        .ok
          ({ st with
              events := st.events ++
                routes.map (fun r => Ev.protocolRouteExecuted r.protocol r.amount (env r)) },
            routes.foldl (fun a r => a && env r) acc) := by
  intro routes
  induction routes with
  | nil => intro st used acc _ _; simp [splitLoop]
  | cons r rest ih =>
    intro st used acc htr hsum
    have hr := htr r (List.mem_cons_self _ _)
    have hbound : used + r.amount ≤ totalAmount := by
      simp only [List.map_cons, List.sum_cons] at hsum
      omega
    have hrec := ih (emitEv st (.protocolRouteExecuted r.protocol r.amount (env r)))
      (used + r.amount) (acc && env r)
      (fun r' h' => htr r' (List.mem_cons_of_mem _ h'))
      (by simp only [List.map_cons, List.sum_cons] at hsum; omega)
    simp only [splitLoop, req, bind, Except.bind, if_pos hr.1, if_pos hr.2, if_pos hbound]
    rw [hrec]
    simp [emitEv, List.append_assoc]

open OmniFlow OmniFlow.Flow in
/-- `_executeSplitRoute` under the loop conditions: no revert, all
events emitted, balances untouched, result the conjunction of the
per-route outcomes. -/
theorem executeSplitRoute_run (st : CState) (env : PRoute → Bool) (routes : List PRoute)
    (totalAmount : ℕ)
    (hlen : 2 ≤ routes.length)
    (htr : ∀ r ∈ routes, st.trustedBridges r.bridge = true ∧ 0 < r.callDataLen)
    (hsum : (routes.map PRoute.amount).sum ≤ totalAmount) :
    ∃ st', executeSplitRoute st env routes totalAmount =
        .ok (st', routes.foldl (fun a r => a && env r) true) ∧
      st'.balances = st.balances ∧
      st'.contractAddr = st.contractAddr ∧
      (∀ r ∈ routes, Ev.protocolRouteExecuted r.protocol r.amount (env r) ∈ st'.events) := by
  have hloop := splitLoop_run env totalAmount routes st 0 true htr (by omega)
  simp only [executeSplitRoute, req, bind, Except.bind, if_pos hlen]
  rw [hloop]
  rcases hshape : routes with _ | ⟨r1, _ | ⟨r2, _ | _⟩⟩ <;> subst hshape
  · simp at hlen
  · simp at hlen
  · refine ⟨_, rfl, rfl, rfl, ?_⟩
    intro r hr
    simp only [emitEv, List.mem_append, List.mem_map]
    left
    right
    exact ⟨r, hr, rfl⟩
  · refine ⟨_, rfl, rfl, rfl, ?_⟩
    intro r hr
    simp only [List.mem_append, List.mem_map]
    right
    exact ⟨r, hr, rfl⟩

open OmniFlow OmniFlow.Flow in
/-- `_executeSingleRoute` on a trusted bridge with calldata: no revert,
the event is emitted and the call outcome returned. -/
theorem executeSingleRoute_run (st : CState) (env : PRoute → Bool) (route : PRoute) (amount : ℕ)
    (htr : st.trustedBridges route.bridge = true) (hlen : 0 < route.callDataLen) :
    executeSingleRoute st env route amount =
      .ok (emitEv st (.protocolRouteExecuted route.protocol amount (env route)), env route) := by
  simp [executeSingleRoute, req, bind, Except.bind, htr, hlen]

open OmniFlow OmniFlow.Flow in
/-- `safeTransfer` succeeds when the balance suffices. -/
theorem safeTransfer_ok (st : CState) (src dst amt : ℕ) (h : amt ≤ st.balances src) :
    safeTransfer st src dst amt =
      .ok { st with balances := doTransfer st.balances src dst amt } := by
  simp [safeTransfer, Nat.not_lt.mpr h]

open OmniFlow OmniFlow.Flow in
/-- The protocol fee never exceeds the total amount. -/
theorem fee_le_total (total bps : ℕ) (h : bps ≤ 10000) : total * bps / 10000 ≤ total := by
  calc total * bps / 10000 ≤ total * 10000 / 10000 :=
        Nat.div_le_div_right (Nat.mul_le_mul_left _ h)
    _ = total := by omega

open OmniFlow in
/-- A satisfied `require` is a no-op. -/
theorem req_true {c : Prop} [Decidable c] (h : c) (msg : String) : req c msg = .ok () := by
  simp [req, h]

open OmniFlow in
/-- Monadic sequencing after a successful step. -/
theorem bind_ok_ex {α β : Type} (a : α) (f : α → Except String β) :
    (Except.ok a >>= f) = f a := rfl

open OmniFlow in
/-- Inversion: a computation that starts with a `require` can only
return `ok` when the required condition held. -/
theorem req_bind_ok {c : Prop} [Decidable c] {msg : String} {β : Type}
    {f : Unit → Except String β} {v : β} (h : (req c msg >>= f) = .ok v) :
    c ∧ f () = .ok v := by
  by_cases hc : c
  · exact ⟨hc, by simpa [req_true hc, bind_ok_ex] using h⟩
  · simp [req, hc, bind, Except.bind] at h

open OmniFlow OmniFlow.Flow in
/-- Core run of `executeAggregatedRoute` on a failing bridge execution:
under the validation preconditions the call does not revert — it
returns `false`, keeps the protocol fee at the fee recipient, refunds
exactly the net amount to the sender, and (for a split) has emitted one
event per sub-route. -/
theorem execAgg_failure_core (st : CState) (env : PRoute → Bool) (sender now token : ℕ)
    (strat : RStrategy)
    (hbps : st.protocolFeeBps ≤ 10000)
    (hdl : now ≤ strat.deadline)
    (hne : 0 < strat.routes.length)
    (hta : 0 < strat.totalAmount)
    (htok : token ≠ 0)
    (hsec : st.minGlobalSecurityScore ≤ strat.securityScore)
    (hfp : strat.estimatedFees * 10000 / strat.totalAmount ≤ st.maxFeePercentage)
    (htr : ∀ r ∈ strat.routes, st.trustedBridges r.bridge = true ∧ 0 < r.callDataLen)
    (hbal : strat.totalAmount ≤ st.balances sender)
    (hsc : sender ≠ st.contractAddr) (hfc : st.feeRecipient ≠ st.contractAddr)
    (hsf : sender ≠ st.feeRecipient)
    (htype : strat.strategyType = "single-route" ∨
      (strat.strategyType = "split-route" ∧ st.minAmountForSplit ≤ strat.totalAmount ∧
        2 ≤ strat.routes.length ∧ strat.routes.length ≤ 5 ∧
        (strat.routes.map PRoute.amount).sum ≤
          strat.totalAmount - strat.totalAmount * st.protocolFeeBps / 10000))
    (hfail : routesSuccess env strat = false) :
    ∃ st', executeAggregatedRoute st env sender now token strat = .ok (st', false) ∧
      st'.balances sender + strat.totalAmount * st.protocolFeeBps / 10000 = st.balances sender ∧
      st'.balances st.feeRecipient =
        st.balances st.feeRecipient + strat.totalAmount * st.protocolFeeBps / 10000 ∧
      st'.balances st.contractAddr = st.balances st.contractAddr ∧
      (strat.strategyType = "split-route" →
        ∀ r ∈ strat.routes, Ev.protocolRouteExecuted r.protocol r.amount (env r) ∈ st'.events) := by
  have hfee_le : strat.totalAmount * st.protocolFeeBps / 10000 ≤ strat.totalAmount :=
    fee_le_total _ _ hbps
  set fee := strat.totalAmount * st.protocolFeeBps / 10000 with hfee_def
  set net := strat.totalAmount - fee with hnet_def
  -- state after pulling the tokens in
  set st1 : CState := { st with balances := doTransfer st.balances sender st.contractAddr strat.totalAmount } with hst1
  have hb1C : st1.balances st.contractAddr = st.balances st.contractAddr + strat.totalAmount := by
    simp [hst1, doTransfer, hsc, Ne.symm hsc, hfc, Ne.symm hfc, hsf, Ne.symm hsf]
  have hb1S : st1.balances sender = st.balances sender - strat.totalAmount := by
    simp [hst1, doTransfer, hsc, Ne.symm hsc, hfc, Ne.symm hfc, hsf, Ne.symm hsf]
  have hb1F : st1.balances st.feeRecipient = st.balances st.feeRecipient := by
    simp [hst1, doTransfer, hsc, Ne.symm hsc, hfc, Ne.symm hfc, hsf, Ne.symm hsf]
  -- state after the fee transfer (if any)
  set st2 : CState :=
    if 0 < fee then { st1 with balances := doTransfer st1.balances st.contractAddr st.feeRecipient fee }
    else st1 with hst2
  have hb2C : st2.balances st.contractAddr = st.balances st.contractAddr + strat.totalAmount - fee := by
    by_cases h : 0 < fee
    · simp only [hst2, if_pos h]
      simp [doTransfer, hsc, Ne.symm hsc, hfc, Ne.symm hfc, hsf, Ne.symm hsf, hb1C]
    · simp only [hst2, if_neg h]
      simp [doTransfer, hsc, Ne.symm hsc, hfc, Ne.symm hfc, hsf, Ne.symm hsf,
        Nat.eq_zero_of_not_pos h]
  have hb2S : st2.balances sender = st.balances sender - strat.totalAmount := by
    by_cases h : 0 < fee
    · simp only [hst2, if_pos h]
      simp [doTransfer, hsc, Ne.symm hsc, hfc, Ne.symm hfc, hsf, Ne.symm hsf, hb1S]
    · simp only [hst2, if_neg h]; exact hb1S
  have hb2F : st2.balances st.feeRecipient = st.balances st.feeRecipient + fee := by
    by_cases h : 0 < fee
    · simp only [hst2, if_pos h]
      simp [doTransfer, hsc, Ne.symm hsc, hfc, Ne.symm hfc, hsf, Ne.symm hsf, hb1F, hb1C]
    · simp only [hst2, if_neg h]
      simp [doTransfer, hsc, Ne.symm hsc, hfc, Ne.symm hfc, hsf, Ne.symm hsf,
        Nat.eq_zero_of_not_pos h]
  have h2tr : st2.trustedBridges = st.trustedBridges := by
    by_cases h : 0 < fee <;> simp [hst2, h, hst1]
  have h2ca : st2.contractAddr = st.contractAddr := by
    by_cases h : 0 < fee <;> simp [hst2, h, hst1]
  have hs12 : ¬("single-route" = "split-route") := by decide
  have hs21 : ¬("split-route" = "single-route") := by decide
  rcases htype with hsingle | ⟨hsplit, hmin, hlen2, hlen5, hsum2⟩
  · -- single-route strategy
    obtain ⟨r0, rrest, hroutes⟩ : ∃ r0 rrest, strat.routes = r0 :: rrest := by
      cases hr : strat.routes with
      | nil => rw [hr] at hne; simp at hne
      | cons a b => exact ⟨a, b, rfl⟩
    have hr0 := htr r0 (by rw [hroutes]; exact List.mem_cons_self _ _)
    have henv : env r0 = false := by
      simp only [routesSuccess, hsingle, if_pos (show ("single-route":String) = "single-route" from rfl),
        hroutes, List.headD_cons] at hfail
      exact hfail
    simp only [executeAggregatedRoute, hsingle, req_true hdl, req_true hne, req_true hta,
      req_true htok, req_true hsec, req_true hfp, bind_ok_ex, if_neg hs12,
      if_pos (show ("single-route":String) = "single-route" from rfl), if_true]
    rw [safeTransfer_ok st sender st.contractAddr strat.totalAmount hbal, bind_ok_ex]
    rw [← hfee_def, ← hnet_def, hroutes]
    simp only [List.headD_cons]
    by_cases hfee0 : fee > 0
    · rw [if_pos hfee0]
      have hT2 : safeTransfer
          { st with balances := doTransfer st.balances sender st.contractAddr strat.totalAmount }
          st.contractAddr st.feeRecipient fee =
          .ok { st with
            balances :=
              doTransfer (doTransfer st.balances sender st.contractAddr strat.totalAmount)
                st.contractAddr st.feeRecipient fee } := by
        apply safeTransfer_ok
        show fee ≤ doTransfer st.balances sender st.contractAddr strat.totalAmount st.contractAddr
        simp only [doTransfer]
        simp [Ne.symm hsc]
        omega
      rw [hT2, bind_ok_ex]
      rw [executeSingleRoute_run
        { st with
          balances :=
            doTransfer (doTransfer st.balances sender st.contractAddr strat.totalAmount)
              st.contractAddr st.feeRecipient fee }
        env r0 net hr0.1 hr0.2, bind_ok_ex]
      rw [henv]
      simp only [Bool.false_eq_true, if_false]
      have hcond3 : net ≤ (emitEv { st with
          balances :=
            doTransfer (doTransfer st.balances sender st.contractAddr strat.totalAmount)
              st.contractAddr st.feeRecipient fee }
          (Ev.protocolRouteExecuted r0.protocol net false)).balances st.contractAddr := by
        show net ≤ doTransfer (doTransfer st.balances sender st.contractAddr strat.totalAmount)
          st.contractAddr st.feeRecipient fee st.contractAddr
        simp [doTransfer, hsc, Ne.symm hsc, hfc, Ne.symm hfc, hsf, Ne.symm hsf]
        omega
      rw [safeTransfer_ok (emitEv { st with
          balances :=
            doTransfer (doTransfer st.balances sender st.contractAddr strat.totalAmount)
              st.contractAddr st.feeRecipient fee }
        (Ev.protocolRouteExecuted r0.protocol net false)) st.contractAddr sender net hcond3,
        bind_ok_ex]
      refine ⟨_, rfl, ?_, ?_, ?_, fun h => absurd h hs12⟩
      all_goals simp [emitEv, doTransfer, hsc, Ne.symm hsc, hfc, Ne.symm hfc, hsf, Ne.symm hsf]
      all_goals omega
    · rw [if_neg hfee0]
      rw [executeSingleRoute_run { st with
          balances := doTransfer st.balances sender st.contractAddr strat.totalAmount }
        env r0 net hr0.1 hr0.2, bind_ok_ex]
      rw [henv]
      simp only [Bool.false_eq_true, if_false]
      have hcond3 : net ≤ (emitEv { st with
          balances := doTransfer st.balances sender st.contractAddr strat.totalAmount }
          (Ev.protocolRouteExecuted r0.protocol net false)).balances st.contractAddr := by
        show net ≤ doTransfer st.balances sender st.contractAddr strat.totalAmount st.contractAddr
        simp [doTransfer, hsc, Ne.symm hsc, hfc, Ne.symm hfc, hsf, Ne.symm hsf]
        omega
      rw [safeTransfer_ok (emitEv { st with
          balances := doTransfer st.balances sender st.contractAddr strat.totalAmount }
        (Ev.protocolRouteExecuted r0.protocol net false)) st.contractAddr sender net hcond3,
        bind_ok_ex]
      refine ⟨_, rfl, ?_, ?_, ?_, fun h => absurd h hs12⟩
      all_goals simp [emitEv, doTransfer, hsc, Ne.symm hsc, hfc, Ne.symm hfc, hsf, Ne.symm hsf]
      all_goals omega
  · -- split-route strategy
    have hsenv : strat.routes.foldl (fun a r => a && env r) true = false := by
      simp only [routesSuccess, hsplit, if_neg hs21] at hfail
      exact hfail
    simp only [executeAggregatedRoute, hsplit, req_true hdl, req_true hne, req_true hta,
      req_true htok, req_true hsec, req_true hfp, bind_ok_ex,
      if_pos (show ("split-route":String) = "split-route" from rfl), if_neg hs21,
      req_true hmin, req_true (And.intro hlen2 hlen5), if_true]
    rw [safeTransfer_ok st sender st.contractAddr strat.totalAmount hbal, bind_ok_ex]
    rw [← hfee_def, ← hnet_def]
    by_cases hfee0 : fee > 0
    · rw [if_pos hfee0]
      have hT2 : safeTransfer { st with
        balances := doTransfer st.balances sender st.contractAddr strat.totalAmount }
          st.contractAddr st.feeRecipient fee =
          .ok { st with
        balances :=
          doTransfer (doTransfer st.balances sender st.contractAddr strat.totalAmount)
            st.contractAddr st.feeRecipient fee } := by
        apply safeTransfer_ok
        show fee ≤ doTransfer st.balances sender st.contractAddr strat.totalAmount st.contractAddr
        simp [doTransfer, hsc, Ne.symm hsc, hfc, Ne.symm hfc, hsf, Ne.symm hsf]
        omega
      rw [hT2, bind_ok_ex]
      obtain ⟨stS, hSeq, hSbal, hSca, hSev⟩ := executeSplitRoute_run { st with
        balances :=
          doTransfer (doTransfer st.balances sender st.contractAddr strat.totalAmount)
            st.contractAddr st.feeRecipient fee }
        env strat.routes net hlen2 htr hsum2
      rw [hSeq, bind_ok_ex, hsenv]
      simp only [Bool.false_eq_true, if_false]
      have hcond : net ≤ stS.balances st.contractAddr := by
        rw [hSbal]
        show net ≤ doTransfer (doTransfer st.balances sender st.contractAddr strat.totalAmount)
          st.contractAddr st.feeRecipient fee st.contractAddr
        simp [doTransfer, hsc, Ne.symm hsc, hfc, Ne.symm hfc, hsf, Ne.symm hsf]
        omega
      rw [safeTransfer_ok stS st.contractAddr sender net hcond, bind_ok_ex]
      refine ⟨_, rfl, ?_, ?_, ?_, ?_⟩
      · simp [emitEv, doTransfer, hSbal, hsc, Ne.symm hsc, hfc, Ne.symm hfc, hsf, Ne.symm hsf]
        try omega
      · simp [emitEv, doTransfer, hSbal, hsc, Ne.symm hsc, hfc, Ne.symm hfc, hsf, Ne.symm hsf]
        try omega
      · simp [emitEv, doTransfer, hSbal, hsc, Ne.symm hsc, hfc, Ne.symm hfc, hsf, Ne.symm hsf]
        try omega
      · intro _ r hr
        simp only [emitEv, List.mem_append, List.mem_singleton]
        exact Or.inl (hSev r hr)
    · rw [if_neg hfee0]
      obtain ⟨stS, hSeq, hSbal, hSca, hSev⟩ := executeSplitRoute_run { st with
        balances := doTransfer st.balances sender st.contractAddr strat.totalAmount }
        env strat.routes net hlen2 htr hsum2
      rw [hSeq, bind_ok_ex, hsenv]
      simp only [Bool.false_eq_true, if_false]
      have hcond : net ≤ stS.balances st.contractAddr := by
        rw [hSbal]
        show net ≤ doTransfer st.balances sender st.contractAddr strat.totalAmount st.contractAddr
        simp [doTransfer, hsc, Ne.symm hsc, hfc, Ne.symm hfc, hsf, Ne.symm hsf]
        omega
      rw [safeTransfer_ok stS st.contractAddr sender net hcond, bind_ok_ex]
      refine ⟨_, rfl, ?_, ?_, ?_, ?_⟩
      · simp [emitEv, doTransfer, hSbal, hsc, Ne.symm hsc, hfc, Ne.symm hfc, hsf, Ne.symm hsf]
        try omega
      · simp [emitEv, doTransfer, hSbal, hsc, Ne.symm hsc, hfc, Ne.symm hfc, hsf, Ne.symm hsf]
        try omega
      · simp [emitEv, doTransfer, hSbal, hsc, Ne.symm hsc, hfc, Ne.symm hfc, hsf, Ne.symm hsf]
        try omega
      · intro _ r hr
        simp only [emitEv, List.mem_append, List.mem_singleton]
        exact Or.inl (hSev r hr)

/-- Once the accumulator of the split loop conjunction is false it stays
false. -/
theorem foldl_and_false_acc {α : Type} (env : α → Bool) :
    ∀ l : List α, l.foldl (fun a x => a && env x) false = false := by
  intro l
  induction l with
  | nil => rfl
  | cons x xs ih => simpa [List.foldl] using ih

/-- One failing call makes the split-loop conjunction false. -/
theorem foldl_and_eq_false {α : Type} (env : α → Bool) (l : List α) (r : α)
    (hr : r ∈ l) (hf : env r = false) :
    ∀ acc, l.foldl (fun a x => a && env x) acc = false := by
  induction l with
  | nil => cases hr
  | cons x xs ih =>
    intro acc
    rcases List.mem_cons.mp hr with h | h
    · subst h
      simp [List.foldl, hf, foldl_and_false_acc]
    · simpa [List.foldl] using ih h _

open OmniFlow OmniFlow.Flow in
/-- Claim C10: when the bridge execution of a validated strategy reports
failure, `executeAggregatedRoute` does not revert — it returns `false`,
refunds exactly `totalAmount − protocolFee` to the caller (net change
`−protocolFee`), and the protocol fee stays with the fee recipient. -/
theorem executeAggregatedRoute_failure_refund (st : CState) (env : PRoute → Bool)
    (sender now token : ℕ) (strat : RStrategy)
    (hbps : st.protocolFeeBps ≤ 10000)
    (hdl : now ≤ strat.deadline)
    (hne : 0 < strat.routes.length)
    (hta : 0 < strat.totalAmount)
    (htok : token ≠ 0)
    (hsec : st.minGlobalSecurityScore ≤ strat.securityScore)
    (hfp : strat.estimatedFees * 10000 / strat.totalAmount ≤ st.maxFeePercentage)
    (htr : ∀ r ∈ strat.routes, st.trustedBridges r.bridge = true ∧ 0 < r.callDataLen)
    (hbal : strat.totalAmount ≤ st.balances sender)
    (hsc : sender ≠ st.contractAddr) (hfc : st.feeRecipient ≠ st.contractAddr)
    (hsf : sender ≠ st.feeRecipient)
    (htype : strat.strategyType = "single-route" ∨
      (strat.strategyType = "split-route" ∧ st.minAmountForSplit ≤ strat.totalAmount ∧
        2 ≤ strat.routes.length ∧ strat.routes.length ≤ 5 ∧
        (strat.routes.map PRoute.amount).sum ≤
          strat.totalAmount - strat.totalAmount * st.protocolFeeBps / 10000))
    (hfail : routesSuccess env strat = false) :
    ∃ st', executeAggregatedRoute st env sender now token strat = .ok (st', false) ∧
      st'.balances sender + strat.totalAmount * st.protocolFeeBps / 10000 = st.balances sender ∧
      st'.balances st.feeRecipient =
        st.balances st.feeRecipient + strat.totalAmount * st.protocolFeeBps / 10000 ∧
      st'.balances st.contractAddr = st.balances st.contractAddr := by
  obtain ⟨st', h1, h2, h3, h4, _⟩ := execAgg_failure_core st env sender now token strat hbps hdl
    hne hta htok hsec hfp htr hbal hsc hfc hsf htype hfail
  exact ⟨st', h1, h2, h3, h4⟩

open OmniFlow OmniFlow.Ex OmniFlow.Flow in
/-- Witness for C10: sender 10 pays 1000000 into the single-route
strategy, the bridge call fails; the call returns false, the sender
ends with 999000 (exactly the net amount back, the 1000 fee lost) and
the fee recipient holds the 1000 fee. -/
theorem executeAggregatedRoute_failure_refund_witness :
    ∃ st', executeAggregatedRoute flowState envFail 10 50 7 flowSingle = .ok (st', false) ∧
      st'.balances 10 + 1000 = 1000000 ∧ st'.balances 20 = 1000 ∧ st'.balances 30 = 0 := by
  obtain ⟨st', h1, h2, h3, h4⟩ := executeAggregatedRoute_failure_refund flowState envFail
    10 50 7 flowSingle (by decide) (by decide) (by decide) (by decide) (by decide) (by decide)
    (by decide) (by decide) (by decide) (by decide) (by decide) (by decide) (Or.inl rfl) rfl
  refine ⟨st', h1, ?_, ?_, ?_⟩
  · simpa [flowState, flowSingle] using h2
  · simpa [flowState, flowSingle] using h3
  · simpa [flowState, flowSingle] using h4

open OmniFlow OmniFlow.Ex OmniFlow.Flow in
/-- Claim C3 counterexample: a failing bridge call during
`executeAggregatedRoute` is an error during the operation, yet the
transaction does not revert and state changes persist: the call
completes with `ok`, returns `false`, and the 1000-token protocol fee
has moved to the fee recipient (balances 999000/1000/0 instead of the
pre-call 1000000/0/0).  In a split route, a failing first sub-route
does not stop the second: both sub-route events are emitted, the
second with success `true`. -/
theorem executeAggregatedRoute_error_not_fatal_counterexample :
    (executeAggregatedRoute flowState envFail 10 50 7 flowSingle).map
        (fun p => (p.2, p.1.balances 10, p.1.balances 20, p.1.balances 30)) =
      .ok (false, 999000, 1000, 0) ∧
      (executeAggregatedRoute flowState envFail500 10 50 7 flowSplit).map
          (fun p => (p.2, p.1.events)) =
        .ok (false,
          [.protocolRouteExecuted "Across" 699300 false,
           .protocolRouteExecuted "LiFi" 299700 true,
           .routeSplit "Across" 699300 "LiFi" 299700,
           .aggregatedRouteExecuted "split-route" 2 1000000 false]) := by
  exact ⟨rfl, rfl⟩

open OmniFlow OmniFlow.Flow in
/-- Claim C3 amended: `require`-style precondition violations do revert
(the `Except` model discards every effect on error), but a failed
external bridge call inside `executeAggregatedRoute` is not fatal: the
transaction completes returning `false`, the protocol fee is kept, the
net amount refunded, and in a split route every sub-route is still
executed after a failing one — each sub-route event is emitted with its
own outcome. -/
theorem executeAggregatedRoute_split_failure_continues (st : CState) (env : PRoute → Bool)
    (sender now token : ℕ) (strat : RStrategy)
    (hbps : st.protocolFeeBps ≤ 10000)
    (hdl : now ≤ strat.deadline)
    (hta : 0 < strat.totalAmount)
    (htok : token ≠ 0)
    (hsec : st.minGlobalSecurityScore ≤ strat.securityScore)
    (hfp : strat.estimatedFees * 10000 / strat.totalAmount ≤ st.maxFeePercentage)
    (htr : ∀ r ∈ strat.routes, st.trustedBridges r.bridge = true ∧ 0 < r.callDataLen)
    (hbal : strat.totalAmount ≤ st.balances sender)
    (hsc : sender ≠ st.contractAddr) (hfc : st.feeRecipient ≠ st.contractAddr)
    (hsf : sender ≠ st.feeRecipient)
    (hsplit : strat.strategyType = "split-route")
    (hmin : st.minAmountForSplit ≤ strat.totalAmount)
    (hlen2 : 2 ≤ strat.routes.length) (hlen5 : strat.routes.length ≤ 5)
    (hsum : (strat.routes.map PRoute.amount).sum ≤
      strat.totalAmount - strat.totalAmount * st.protocolFeeBps / 10000)
    (rfail : PRoute) (hrf : rfail ∈ strat.routes) (hrfail : env rfail = false) :
    (∃ st', executeAggregatedRoute st env sender now token strat = .ok (st', false) ∧
      (∀ r ∈ strat.routes, Ev.protocolRouteExecuted r.protocol r.amount (env r) ∈ st'.events) ∧
      st'.balances sender + strat.totalAmount * st.protocolFeeBps / 10000 = st.balances sender ∧
      st'.balances st.feeRecipient =
        st.balances st.feeRecipient + strat.totalAmount * st.protocolFeeBps / 10000) ∧
    (∀ (stX : CState) (stratX : RStrategy) (p : CState × Bool),
      executeAggregatedRoute stX env sender now token stratX = .ok p →
        now ≤ stratX.deadline ∧ 0 < stratX.routes.length ∧ 0 < stratX.totalAmount ∧
          token ≠ 0 ∧ stX.minGlobalSecurityScore ≤ stratX.securityScore ∧
          stratX.estimatedFees * 10000 / stratX.totalAmount ≤ stX.maxFeePercentage) := by
  constructor
  · have hfail : routesSuccess env strat = false := by
      have hs21 : ¬("split-route" = "single-route") := by decide
      simp only [routesSuccess, hsplit, if_neg hs21]
      exact foldl_and_eq_false env strat.routes rfail hrf hrfail true
    obtain ⟨st', h1, h2, h3, _, h5⟩ := execAgg_failure_core st env sender now token strat hbps hdl
      (by omega) hta htok hsec hfp htr hbal hsc hfc hsf
      (Or.inr ⟨hsplit, hmin, hlen2, hlen5, hsum⟩) hfail
    exact ⟨st', h1, h5 hsplit, h2, h3⟩
  · intro stX stratX p h
    simp only [executeAggregatedRoute] at h
    obtain ⟨h1, h⟩ := req_bind_ok h
    obtain ⟨h2, h⟩ := req_bind_ok h
    obtain ⟨h3, h⟩ := req_bind_ok h
    obtain ⟨h4, h⟩ := req_bind_ok h
    obtain ⟨h5, h⟩ := req_bind_ok h
    obtain ⟨h6, h⟩ := req_bind_ok h
    exact ⟨h1, h2, h3, h4, h5, h6⟩

open OmniFlow OmniFlow.Ex OmniFlow.Flow in
/-- Witness for the amended C3 at the concrete split strategy: bridge
500 fails, bridge 501 succeeds; the call returns false with both
sub-route events present. -/
theorem executeAggregatedRoute_split_failure_continues_witness :
    ∃ st', executeAggregatedRoute flowState envFail500 10 50 7 flowSplit = .ok (st', false) ∧
      Ev.protocolRouteExecuted "Across" 699300 false ∈ st'.events ∧
      Ev.protocolRouteExecuted "LiFi" 299700 true ∈ st'.events := by
  obtain ⟨⟨st', h1, h2, h3, h4⟩, _⟩ := executeAggregatedRoute_split_failure_continues flowState
    envFail500 10 50 7 flowSplit (by decide) (by decide) (by decide) (by decide) (by decide)
    (by decide) (by decide) (by decide) (by decide) (by decide) (by decide) rfl (by decide)
    (by decide) (by decide) (by decide) ⟨"Across", 500, 4, 0, 699300⟩ (by decide) (by decide)
  refine ⟨st', h1, ?_, ?_⟩
  · have := h2 ⟨"Across", 500, 4, 0, 699300⟩ (by decide)
    simpa [envFail500] using this
  · have := h2 ⟨"LiFi", 501, 4, 0, 299700⟩ (by decide)
    simpa [envFail500] using this
